import Mathlib

/-!
Verification development for the realtime signaling gateway
(`src/unified.gateway.ts`, plus the IP-rate-limited variant and the
Redis-clustered variant of the same gateway found in the repository).

The TypeScript source is shallowly embedded: each handler becomes a pure
Lean function from an explicit state to a response, a new state and a list
of emitted socket events.  JavaScript `Record<string, T>` maps become
functions `String → Option T`; `Date.now()` becomes an explicit `now : Nat`
argument; `Math.random()` draws become explicit lists of natural-number
draws; the regular-expression based sanitizer is embedded as character-list
scanners that implement the exact match semantics of the source regexes.
-/

namespace MChat

/-- Pointwise update of a string-keyed map (JS `obj[k] = v` / `delete obj[k]`). -/
def update {α : Type} (m : String → Option α) (k : String) (v : Option α) :
    String → Option α :=
  fun q => if q = k then v else m q

/-!
The global-replace scanners below each remove at least one character per
match, so a pass over a list `l` takes at most `l.length` steps.  Each
scanner is written with an explicit step budget (initialised to
`l.length`, never exhausted) so that it is structurally recursive and
therefore computable inside the kernel.
-/

/-! ## Character-level machinery for `validateAndSanitizeMessage`

The source sanitizer is a chain of five `String.replace` calls with global
regexes followed by a list of `RegExp.test` checks.  Each regex is embedded
as a scanner over `List Char` reproducing the leftmost, non-overlapping,
greedy match semantics of the JavaScript engine for that particular
pattern. -/

/-- `\w` of the source regexes: ASCII letters, digits and underscore. -/
def isWordChar (c : Char) : Bool :=
  (('a' ≤ c && c ≤ 'z') || ('A' ≤ c && c ≤ 'Z') || ('0' ≤ c && c ≤ '9') || c = '_')

/-- `\s` of the source regexes (the whitespace characters relevant here). -/
def isSpaceChar (c : Char) : Bool :=
  (c = ' ' || c = '\t' || c = '\n' || c = '\r' || c = '\x0b' || c = '\x0c')

/-- `String.prototype.trim` (both ends). -/
def jsTrim (l : List Char) : List Char :=
  ((l.dropWhile isSpaceChar).reverse.dropWhile isSpaceChar).reverse

/-- Case-insensitive prefix test; the pattern is given in lower case. -/
def isPrefixCI : List Char → List Char → Bool
  | [], _ => true
  | _ :: _, [] => false
  | p :: ps, c :: cs => (p = c.toLower) && isPrefixCI ps cs

/-- Case-insensitive substring test (`RegExp.test` for a literal pattern). -/
def containsCI (pat : List Char) : List Char → Bool
  | [] => isPrefixCI pat []
  | c :: cs => isPrefixCI pat (c :: cs) || containsCI pat cs

/-- `RegExp.test` for `pat\s*\(` (used for `setTimeout\s*\(` and
`setInterval\s*\(`); the literal part is given in lower case. -/
def containsCallCI (pat : List Char) : List Char → Bool
  | [] => false
  | c :: cs =>
    (isPrefixCI pat (c :: cs) &&
      (match ((c :: cs).drop pat.length).dropWhile isSpaceChar with
       | '(' :: _ => true
       | _ => false)) || containsCallCI pat cs

/-- Drop everything up to and including the first case-insensitive
occurrence of `pat`; `none` when `pat` does not occur. -/
def dropThroughCI (pat : List Char) : List Char → Option (List Char)
  | [] => none
  | c :: cs =>
    if isPrefixCI pat (c :: cs) then some ((c :: cs).drop pat.length)
    else dropThroughCI pat cs

/-- One global-replace pass of
`/<script\b[^<]*(?:(?!<\/script>)<[^<]*)*<\/script>/gi` by the empty string:
each match runs from a `<script` (whose following character is not a word
character, per `\b`) to the first subsequent `</script>`. -/
def removeScriptTags (l : List Char) : List Char :=
  go l.length l
where
  go : Nat → List Char → List Char
  | 0, l => l
  | _ + 1, [] => []
  | fuel + 1, c :: cs =>
    if isPrefixCI (String.toList ("<script")) (c :: cs) &&
       !(match (c :: cs).drop 7 with
         | d :: _ => isWordChar d
         | [] => false) then
      match dropThroughCI (String.toList ("</script>")) ((c :: cs).drop 7) with
      | some rest => go fuel rest
      | none => c :: go fuel cs
    else c :: go fuel cs

/-- One global-replace pass of `/<[^>]*>/g` by the empty string: each match
runs from a `<` to the first subsequent `>`; a `<` with no later `>` never
matches (and then no later match is possible at all). -/
def removeHtmlTags (l : List Char) : List Char :=
  go l.length l
where
  go : Nat → List Char → List Char
  | 0, l => l
  | _ + 1, [] => []
  | fuel + 1, c :: cs =>
    if c = '<' then
      match cs.dropWhile (fun d => d ≠ '>') with
      | [] => c :: cs
      | _ :: rest => go fuel rest
    else c :: go fuel cs

/-- One global-replace pass of a case-insensitive literal (the
`/javascript:/gi` replace); the pattern is `p :: ps`, in lower case. -/
def removeLiteralCI (p : Char) (ps : List Char) (l : List Char) : List Char :=
  go l.length l
where
  go : Nat → List Char → List Char
  | 0, l => l
  | _ + 1, [] => []
  | fuel + 1, c :: cs =>
    if isPrefixCI (p :: ps) (c :: cs) then go fuel (cs.drop ps.length)
    else c :: go fuel cs

/-- The `=` step shared by the anchored matchers below: succeed on a
leading `=` and return the rest. -/
def matchEqThen (l : List Char) : Option (List Char) :=
  match l with
  | c :: r => if c = '=' then some r else none
  | [] => none

/-- Match of `/on\w+\s*=/i` anchored at the head of the list, returning the
suffix after the match.  Backtracking cannot help this pattern, so the
greedy runs are definitive. -/
def matchEventHandler : List Char → Option (List Char)
  | o :: n :: rest =>
    if o.toLower = 'o' && n.toLower = 'n' then
      if (rest.takeWhile isWordChar).isEmpty then none
      else matchEqThen ((rest.dropWhile isWordChar).dropWhile isSpaceChar)
    else none
  | _ => none

/-- One global-replace pass of `/on\w+\s*=/gi` by the empty string. -/
def removeEventHandlers (l : List Char) : List Char :=
  go l.length l
where
  go : Nat → List Char → List Char
  | 0, l => l
  | _ + 1, [] => []
  | fuel + 1, c :: cs =>
    match matchEventHandler (c :: cs) with
    | some rest => go fuel rest
    | none => c :: go fuel cs

def isQuoteChar (c : Char) : Bool := (c = '"' || c = '\'')

/-- The `["'][^"']*["']` tail of the style-attribute regex: a quote, then
everything up to the next quote character of either kind (which must
exist). -/
def matchQuotedBody (l : List Char) : Option (List Char) :=
  match l with
  | q :: r4 =>
    if isQuoteChar q then
      match r4.dropWhile (fun d => !(isQuoteChar d)) with
      | _ :: rest => some rest
      | [] => none
    else none
  | [] => none

/-- Match of `/style\s*=\s*["'][^"']*["']/i` anchored at the head of the
list, returning the suffix after the match. -/
def matchStyleAttr (l : List Char) : Option (List Char) :=
  if isPrefixCI (String.toList ("style")) l then
    match matchEqThen ((l.drop 5).dropWhile isSpaceChar) with
    | some r2 => matchQuotedBody (r2.dropWhile isSpaceChar)
    | none => none
  else none

/-- One global-replace pass of `/style\s*=\s*["'][^"']*["']/gi`. -/
def removeStyleAttrs (l : List Char) : List Char :=
  go l.length l
where
  go : Nat → List Char → List Char
  | 0, l => l
  | _ + 1, [] => []
  | fuel + 1, c :: cs =>
    match matchStyleAttr (c :: cs) with
    | some rest => go fuel rest
    | none => c :: go fuel cs

/-- The full sanitization chain of `validateAndSanitizeMessage`, in source
order: script tags, HTML tags, `javascript:` URLs, event-handler
attributes, `style` attributes. -/
def sanitizeChars (l : List Char) : List Char :=
  removeStyleAttrs
    (removeEventHandlers
      (removeLiteralCI 'j' (String.toList ("avascript:"))
        (removeHtmlTags (removeScriptTags l))))

/-- The `dangerousPatterns` test loop of `validateAndSanitizeMessage`. -/
def hasDangerousPattern (l : List Char) : Bool :=
  (containsCI (String.toList ("<iframe")) l ||
   containsCI (String.toList ("<object")) l ||
   containsCI (String.toList ("<embed")) l ||
   containsCI (String.toList ("<form")) l ||
   containsCI (String.toList ("<input")) l ||
   containsCI (String.toList ("eval(")) l ||
   containsCI (String.toList ("function(")) l ||
   containsCallCI (String.toList ("settimeout")) l ||
   containsCallCI (String.toList ("setinterval")) l)

inductive ValidationResult where
  | valid (sanitizedText : String)
  | invalid (error : String)
deriving DecidableEq, Repr

def MAX_MESSAGE_LENGTH : Nat := 5000

/-- `validateAndSanitizeMessage` of `unified.gateway.ts` (identical in the
clustered variant).  An empty string is the only falsy `string` value, so
the `!text` guard is the `text = ""` test. -/
def validateAndSanitizeMessage (text : String) : ValidationResult :=
  if text = ("") then .invalid ("Message must be a non-empty string")
  else
    let trimmed := jsTrim text.toList
    if trimmed.length = 0 then .invalid ("Message cannot be empty")
    else if trimmed.length > MAX_MESSAGE_LENGTH then
      .invalid ("Message too long (max 5000 characters)")
    else
      let sanitized := sanitizeChars trimmed
      if hasDangerousPattern sanitized then
        .invalid ("Message contains potentially dangerous content")
      else .valid (String.mk sanitized)

/-! ## Common data model -/

inductive RoomType where
  | text | video | voice
deriving DecidableEq, Repr

structure Message where
  sender : String
  text : String
  timestamp : Nat
deriving DecidableEq, Repr

structure AudioSettings where
  echoCancellation : Bool
  noiseSuppression : Bool
  autoGainControl : Bool
  sampleRate : Nat
deriving DecidableEq, Repr

/-- The `Room` interface of the gateways. -/
structure Room where
  creator : String
  users : List String
  type : RoomType
  messages : Option (List Message)
  audioSettings : Option AudioSettings
deriving DecidableEq, Repr

/-- The `FileTransfer` interface of `unified.gateway.ts`. -/
structure FileTransfer where
  id : String
  sender : String
  receiver : String
  fileName : String
  fileSize : Nat
  fileType : String
  totalChunks : Nat
  receivedChunks : Nat
  timestamp : Nat
deriving DecidableEq, Repr

/-- Handler responses: `{ ...payload }` or `{ error: string }`. -/
inductive Resp (α : Type) where
  | ok (val : α)
  | error (msg : String)
deriving DecidableEq, Repr

def Resp.isOk {α : Type} : Resp α → Bool
  | .ok _ => true
  | .error _ => false

/-- Target of a socket emission: `server.to(room)` reaches every member of
the room; `client.to(id)` / `server.to(id)` reaches one connection. -/
inductive EmitTarget where
  | room (code : String)
  | user (id : String)
deriving DecidableEq, Repr

/-- Payload of the `fileChunk` client event. -/
structure ChunkData where
  transferId : String
  chunkIndex : Nat
  totalChunks : Nat
  chunk : String
  fileName : String
  fileSize : Nat
  fileType : String
deriving DecidableEq, Repr

/-- The file descriptor of the `sendFile` event. -/
structure FileInfo where
  name : String
  data : String
  type : String
  size : Nat
deriving DecidableEq, Repr

/-- The events emitted by the handlers modelled here. -/
inductive EmitPayload where
  | userJoined (userId : String) (totalUsers : Nat)
  | userCount (count : Nat)
  | newMessage (m : Message)
  | userLeft (userId : String) (totalUsers : Nat)
  | userDisconnected
  | callEnded (endedBy : String)
  | fileTransferStart (transferId fileName : String) (fileSize : Nat)
      (fileType : String) (totalChunks : Nat)
  | fileChunk (d : ChunkData)
  | fileTransferComplete (transferId : String)
  | fileTransferCancelled (transferId : String)
deriving DecidableEq, Repr

structure Emission where
  target : EmitTarget
  payload : EmitPayload
deriving DecidableEq, Repr

/-- The join response `{ success, messages, totalUsers, roomType }`. -/
structure JoinOk where
  messages : List Message
  totalUsers : Nat
  roomType : RoomType
deriving DecidableEq, Repr

/-- One candidate of `generateCode`: the source draws
`Math.floor(100000 + Math.random() * 900000)`, which ranges over exactly
the integers `100000..999999`; the draw is parameterised here by an
arbitrary seed mapped into that range. -/
def codeOfDraw (n : Nat) : Nat := 100000 + n % 900000

/-- `generateCode`: retry a fresh random 6-digit code while it collides
with a live room.  The random stream is passed explicitly; `none` means
the supplied draws were exhausted (the source would keep drawing). -/
def generateCode (rooms : String → Option Room) : List Nat → Option String
  | [] => none
  | n :: rest =>
    let code := toString (codeOfDraw n)
    if (rooms code).isSome then generateCode rooms rest else some code

/-! ## The unified gateway (`src/unified.gateway.ts`) -/

namespace Gateway

def MAX_FILE_SIZE : Nat := 100 * 1024 * 1024

def CHUNK_SIZE : Nat := 64 * 1024

def MAX_MESSAGES_PER_ROOM : Nat := 100

def ROOM_INACTIVITY_TIMEOUT : Nat := 30 * 60 * 1000

def ALLOWED_FILE_TYPES : List String :=
  [("image/jpeg"), ("image/png"), ("image/gif"), ("image/webp"),
   ("image/svg+xml"), ("image/bmp"),
   ("application/pdf"), ("text/plain"), ("text/csv"),
   ("application/msword"),
   ("application/vnd.openxmlformats-officedocument.wordprocessingml.document"),
   ("application/vnd.ms-excel"),
   ("application/vnd.openxmlformats-officedocument.spreadsheetml.sheet"),
   ("application/vnd.ms-powerpoint"),
   ("application/vnd.openxmlformats-officedocument.presentationml.presentation"),
   ("application/zip"), ("application/x-rar-compressed"),
   ("application/x-7z-compressed"), ("application/gzip"),
   ("audio/mpeg"), ("audio/wav"), ("audio/ogg"), ("audio/webm"), ("audio/mp4"),
   ("video/mp4"), ("video/webm"), ("video/ogg"), ("video/quicktime"),
   ("application/json"), ("application/xml")]

def BLOCKED_EXTENSIONS : List String :=
  [(".exe"), (".bat"), (".cmd"), (".com"), (".msi"), (".scr"), (".pif"),
   (".vbs"), (".vbe"), (".js"), (".jse"), (".ws"), (".wsf"), (".wsc"), (".wsh"),
   (".ps1"), (".psm1"), (".psd1"), (".ps1xml"), (".pssc"), (".psc1"),
   (".dll"), (".sys"), (".drv"), (".ocx"),
   (".hta"), (".cpl"), (".msc"), (".jar")]

/-- Gateway state: the room registry, the file-transfer table and the
per-room activity stamps (JS objects/Maps become string-keyed partial
maps). -/
structure GState where
  rooms : String → Option Room
  fileTransfers : String → Option FileTransfer
  roomLastActivity : String → Option Nat

/-- `fileName.toLowerCase().substring(fileName.lastIndexOf('.'))`: the
suffix from the last dot; with no dot, `lastIndexOf` is `-1`, `substring`
clamps it to `0` and the whole lowercased name is returned. -/
def extOf (fileName : String) : String :=
  let lower := fileName.toList.map Char.toLower
  if ('.') ∈ lower then
    String.mk ('.' :: (lower.reverse.takeWhile (fun c => c ≠ '.')).reverse)
  else String.mk lower

def toLowerStr (s : String) : String := String.mk (s.toList.map Char.toLower)

/-- `validateFileType`: blocked-extension check first, then the MIME
whitelist with the `application/octet-stream` escape hatch. -/
def validateFileType (fileName fileType : String) : Resp Unit :=
  let ext := extOf fileName
  if ext ∈ BLOCKED_EXTENSIONS then
    .error (("File type \x27") ++ ext ++ ("\x27 is not allowed for security reasons"))
  else if toLowerStr fileType ∉ ALLOWED_FILE_TYPES then
    if fileType = ("application/octet-stream") ∧ ext ∉ BLOCKED_EXTENSIONS then
      .ok ()
    else .error (("File type \x27") ++ fileType ++ ("\x27 is not allowed"))
  else .ok ()

/-- The room object built by `createRoom`. -/
def newRoom (clientId : String) (ty : RoomType) : Room :=
  { creator := clientId
    users := [clientId]
    type := ty
    messages := if ty = .text then some [] else none
    audioSettings :=
      if ty = .voice then some ⟨true, true, true, 48000⟩ else none }

/-- `createRoom` (shared by the `createRoom` / `createVideoRoom` /
`createVoiceRoom` handlers): allocate a fresh code, insert the room with
the creator as sole member, stamp activity, return `{ code }`.  `none`
only when the explicit draw list runs out. -/
def createRoom (s : GState) (clientId : String) (ty : RoomType)
    (draws : List Nat) (now : Nat) : Option (String × GState) :=
  match generateCode s.rooms draws with
  | none => none
  | some code =>
    some (code,
      { s with
        rooms := update s.rooms code (some (newRoom clientId ty))
        roomLastActivity := update s.roomLastActivity code (some now) })

/-- `joinRoom` (shared by `joinRoom` / `joinVideoRoom` / `joinVoiceRoom`):
lookup, optional kind check, duplicate-free membership append, activity
stamp, `userJoined` broadcast (plus `userCount` for voice rooms). -/
def joinRoom (s : GState) (clientId code : String)
    (expectedType : Option RoomType) (now : Nat) :
    Resp JoinOk × GState × List Emission :=
  match s.rooms code with
  | none => (.error ("Room not found"), s, [])
  | some room =>
    if expectedType.isSome ∧ expectedType ≠ some room.type then
      (.error ("Wrong room type"), s, [])
    else
      let users1 := if clientId ∈ room.users then room.users
                    else room.users ++ [clientId]
      let room1 := { room with users := users1 }
      let s1 :=
        { s with
          rooms := update s.rooms code (some room1)
          roomLastActivity := update s.roomLastActivity code (some now) }
      let ems := ⟨.room code, .userJoined clientId users1.length⟩ ::
        (if room.type = .voice then [⟨.room code, .userCount users1.length⟩]
         else [])
      (.ok ⟨room.messages.getD [], users1.length, room.type⟩, s1, ems)

/-- The push-then-cap step of `handleSendMessage`: `messages.push(m)` then
`messages = messages.slice(-MAX_MESSAGES_PER_ROOM)` when over the cap. -/
def pushCapped (cap : Nat) (l : List Message) (m : Message) : List Message :=
  let l1 := l ++ [m]
  if l1.length > cap then l1.drop (l1.length - cap) else l1

/-- `handleSendMessage`: membership check, two-member floor, validation /
sanitization, capped buffer append (text rooms only), activity stamp and
`newMessage` broadcast. -/
def handleSendMessage (s : GState) (clientId code text : String) (now : Nat) :
    Resp Unit × GState × List Emission :=
  match s.rooms code with
  | none => (.error ("Not in room"), s, [])
  | some room =>
    if clientId ∉ room.users then (.error ("Not in room"), s, [])
    else if room.users.length < 2 then
      (.error ("Need at least 2 users to chat"), s, [])
    else
      match validateAndSanitizeMessage text with
      | .invalid e => (.error e, s, [])
      | .valid sanitizedText =>
        let message : Message := ⟨clientId, sanitizedText, now⟩
        let room1 :=
          { room with
            messages := room.messages.map
              (fun ms => pushCapped MAX_MESSAGES_PER_ROOM ms message) }
        let s1 :=
          { s with
            rooms := update s.rooms code (some room1)
            roomLastActivity := update s.roomLastActivity code (some now) }
        (.ok (), s1, [⟨.room code, .newMessage message⟩])

/-- `handleSendFile`: membership and two-member checks, size ceiling, file
type validation, `totalChunks = Math.ceil(size / CHUNK_SIZE)`, exactly-two
P2P check, transfer-record insertion and `fileTransferStart` broadcast.
The random id suffix is passed explicitly. -/
def handleSendFile (s : GState) (clientId code : String) (file : FileInfo)
    (now : Nat) (randSuffix : String) :
    Resp (String × Nat) × GState × List Emission :=
  match s.rooms code with
  | none => (.error ("Not in room"), s, [])
  | some room =>
    if clientId ∉ room.users then (.error ("Not in room"), s, [])
    else if room.users.length < 2 then
      (.error ("Need at least 2 users to share files"), s, [])
    else if file.size > MAX_FILE_SIZE then
      (.error ("File size exceeds maximum limit of 100MB"), s, [])
    else
      match validateFileType file.name file.type with
      | .error e => (.error e, s, [])
      | .ok () =>
        let totalChunks := (file.size + CHUNK_SIZE - 1) / CHUNK_SIZE
        let transferId :=
          clientId ++ ("_") ++ toString now ++ ("_") ++ randSuffix
        let otherUsers := room.users.filter (fun i => i ≠ clientId)
        if otherUsers.length ≠ 1 then
          (.error ("File transfer requires exactly 2 users in room"), s, [])
        else
          let transfer : FileTransfer :=
            ⟨transferId, clientId, otherUsers.getD 0 (""), file.name,
             file.size, file.type, totalChunks, 0, now⟩
          (.ok (transferId, totalChunks),
           { s with fileTransfers :=
               update s.fileTransfers transferId (some transfer) },
           [⟨.room code, .fileTransferStart transferId file.name file.size
               file.type totalChunks⟩])

/-- `handleFileChunk`: accept any chunk event whose transfer id exists and
whose sender matches, increment `receivedChunks`, relay the payload to the
receiver, and on `receivedChunks == totalChunks` emit the completion
notice and free the record (the source schedules the notice and the
deletion 100 ms later; they are modelled as part of the same step). -/
def handleFileChunk (s : GState) (clientId : String) (data : ChunkData) :
    Resp Unit × GState × List Emission :=
  match s.fileTransfers data.transferId with
  | none => (.error ("Invalid transfer"), s, [])
  | some transfer =>
    if transfer.sender ≠ clientId then (.error ("Invalid transfer"), s, [])
    else
      let relay : Emission := ⟨.user transfer.receiver, .fileChunk data⟩
      if transfer.receivedChunks + 1 = transfer.totalChunks then
        (.ok (),
         { s with fileTransfers := update s.fileTransfers data.transferId none },
         [relay, ⟨.user transfer.receiver,
            .fileTransferComplete data.transferId⟩])
      else
        let transfer1 :=
          { transfer with receivedChunks := transfer.receivedChunks + 1 }
        (.ok (),
         { s with fileTransfers :=
             update s.fileTransfers data.transferId (some transfer1) },
         [relay])

/-- `destroyRoom`: unconditional deletion plus `userDisconnected`. -/
def destroyRoom (s : GState) (code : String) : GState × List Emission :=
  ({ s with rooms := update s.rooms code none },
   [⟨.room code, .userDisconnected⟩])

/-- `leaveRoom` (shared by the three leave handlers): remove the member if
present; destroy the room when it becomes empty, otherwise broadcast
`userLeft` (plus `userCount` for voice).  Always `{ success: true }`. -/
def leaveRoom (s : GState) (clientId code : String) :
    Resp Unit × GState × List Emission :=
  match s.rooms code with
  | none => (.ok (), s, [])
  | some room =>
    if clientId ∉ room.users then (.ok (), s, [])
    else
      let users1 := room.users.filter (fun i => i ≠ clientId)
      let room1 := { room with users := users1 }
      if users1.length = 0 then
        let d := destroyRoom { s with rooms := update s.rooms code (some room1) } code
        (.ok (), d.1, d.2)
      else
        (.ok (),
         { s with rooms := update s.rooms code (some room1) },
         ⟨.room code, .userLeft clientId users1.length⟩ ::
           (if room.type = .voice then [⟨.room code, .userCount users1.length⟩]
            else []))

/-- `handleEndCall`: `callEnded` broadcast then unconditional destroy. -/
def handleEndCall (s : GState) (clientId code : String) :
    Resp Unit × GState × List Emission :=
  let d := destroyRoom s code
  (.ok (), d.1, ⟨.room code, .callEnded clientId⟩ :: d.2)

/-- `handleDisconnect`: purge the client's file transfers, then remove the
client from every room, destroying rooms that become empty (the `userLeft`
/ `userCount` broadcasts are not needed by the claims and are omitted). -/
def handleDisconnect (s : GState) (clientId : String) : GState :=
  { s with
    fileTransfers := fun id =>
      match s.fileTransfers id with
      | some t =>
        if t.sender = clientId ∨ t.receiver = clientId then none else some t
      | none => none
    rooms := fun code =>
      match s.rooms code with
      | some room =>
        if clientId ∈ room.users then
          let users1 := room.users.filter (fun i => i ≠ clientId)
          if users1.length = 0 then none else some { room with users := users1 }
        else some room
      | none => none }

/-- `cleanupInactiveRooms`: the janitor sweep deleting empty rooms and
rooms inactive beyond the threshold. -/
def cleanupInactiveRooms (s : GState) (now : Nat) : GState :=
  { s with
    rooms := fun code =>
      match s.rooms code with
      | some room =>
        if room.users.length = 0 ∨
           now - (s.roomLastActivity code).getD 0 > ROOM_INACTIVITY_TIMEOUT then
          none
        else some room
      | none => none
    roomLastActivity := fun code =>
      match s.rooms code with
      | some room =>
        if room.users.length = 0 ∨
           now - (s.roomLastActivity code).getD 0 > ROOM_INACTIVITY_TIMEOUT then
          none
        else s.roomLastActivity code
      | none => s.roomLastActivity code }

/-- One gateway operation, as a relation between states (the arguments of
each handler are existentially packed in the constructor). -/
inductive Step : GState → GState → Prop where
  | create (s : GState) (clientId : String) (ty : RoomType) (draws : List Nat)
      (now : Nat) (code : String) (s1 : GState)
      (h : createRoom s clientId ty draws now = some (code, s1)) : Step s s1
  | join (s : GState) (clientId code : String) (expectedType : Option RoomType)
      (now : Nat) : Step s (joinRoom s clientId code expectedType now).2.1
  | send (s : GState) (clientId code text : String) (now : Nat) :
      Step s (handleSendMessage s clientId code text now).2.1
  | sendFile (s : GState) (clientId code : String) (file : FileInfo)
      (now : Nat) (randSuffix : String) :
      Step s (handleSendFile s clientId code file now randSuffix).2.1
  | chunk (s : GState) (clientId : String) (data : ChunkData) :
      Step s (handleFileChunk s clientId data).2.1
  | leave (s : GState) (clientId code : String) :
      Step s (leaveRoom s clientId code).2.1
  | endCall (s : GState) (clientId code : String) :
      Step s (handleEndCall s clientId code).2.1
  | disconnect (s : GState) (clientId : String) :
      Step s (handleDisconnect s clientId)
  | cleanup (s : GState) (now : Nat) : Step s (cleanupInactiveRooms s now)

/-- The registry invariant of the claims: no live room has an empty member
list. -/
def RoomsNonempty (s : GState) : Prop :=
  ∀ code room, s.rooms code = some room → room.users ≠ []

end Gateway

/-! ## The IP-rate-limited gateway variant (first gateway of `part_000`) -/

namespace IPGateway

/-- The `RateLimit` interface: a fixed-window counter. -/
structure RateLimit where
  count : Nat
  resetTime : Nat
deriving DecidableEq, Repr

/-- The `IPTracker` interface: one window per operation class plus the
optional hard block. -/
structure IPTracker where
  codeGenerations : RateLimit
  joinAttempts : RateLimit
  blockedUntil : Option Nat
deriving DecidableEq, Repr

inductive RLType where
  | generation | join
deriving DecidableEq, Repr

/-- The tracker created on first contact with an IP. -/
def freshTracker (now : Nat) : IPTracker :=
  ⟨⟨0, now + 60000⟩, ⟨0, now + 60000⟩, none⟩

def limitOf (t : IPTracker) : RLType → RateLimit
  | .generation => t.codeGenerations
  | .join => t.joinAttempts

def setLimit (t : IPTracker) (ty : RLType) (l : RateLimit) : IPTracker :=
  match ty with
  | .generation => { t with codeGenerations := l }
  | .join => { t with joinAttempts := l }

def maxCountOf : RLType → Nat
  | .generation => 5
  | .join => 3

/-- The body of `checkRateLimit` once the tracker for the IP exists: the
active hard block short-circuits everything; otherwise the selected
window is reset when elapsed, the ceiling is checked (setting the
10-minute hard block on a join-ceiling breach), and the counter is
incremented when the attempt is admitted. -/
def checkRateLimitTracker (now : Nat) (ty : RLType) (t : IPTracker) :
    Bool × IPTracker :=
  match t.blockedUntil with
  | some b =>
    if now < b then (false, t)
    else checkRateLimitBody now ty t
  | none => checkRateLimitBody now ty t
where
  checkRateLimitBody (now : Nat) (ty : RLType) (t : IPTracker) :
      Bool × IPTracker :=
    let limit0 := limitOf t ty
    let limit :=
      if now > limit0.resetTime then RateLimit.mk 0 (now + 60000) else limit0
    if limit.count ≥ maxCountOf ty then
      (false,
       { setLimit t ty limit with
         blockedUntil :=
           if ty = .join then some (now + 600000) else t.blockedUntil })
    else (true, setLimit t ty { limit with count := limit.count + 1 })

/-- `checkRateLimit` over the `ipTracking` map: create the tracker entry
when absent, then run the check and write the tracker back. -/
def checkRateLimit (m : String → Option IPTracker) (ip : String) (now : Nat)
    (ty : RLType) : Bool × (String → Option IPTracker) :=
  let t := (m ip).getD (freshTracker now)
  let r := checkRateLimitTracker now ty t
  (r.1, update m ip (some r.2))

/-- State of the `part_000` gateway: rooms plus per-IP tracking. -/
structure IPState where
  rooms : String → Option Room
  ipTracking : String → Option IPTracker

/-- `createRoom` of `part_000`: generation rate check first (refusal
creates no room), then code allocation and insertion.  `none` only when
the explicit draw list runs out inside `generateCode`. -/
def createRoom (s : IPState) (clientId ip : String) (ty : RoomType)
    (draws : List Nat) (now : Nat) : Option (Resp String × IPState) :=
  let r := checkRateLimit s.ipTracking ip now .generation
  let s1 : IPState := { s with ipTracking := r.2 }
  if !r.1 then
    some (.error ("Rate limit exceeded. Please try again later."), s1)
  else
    match generateCode s1.rooms draws with
    | none => none
    | some code =>
      some (.ok code,
        { s1 with rooms := update s1.rooms code (some (Gateway.newRoom clientId ty)) })

/-- `joinRoom` of `part_000`: the join rate limit is consulted only when
the room lookup fails; an existing room is joined unconditionally (the
member is pushed even if already present, and the `expectedType` argument
is never checked in this variant). -/
def joinRoom (s : IPState) (clientId ip code : String) (expectedType : RoomType)
    (now : Nat) : Resp (List Message × Nat) × IPState × List Emission :=
  match s.rooms code with
  | none =>
    let r := checkRateLimit s.ipTracking ip now .join
    let s1 : IPState := { s with ipTracking := r.2 }
    if !r.1 then
      (.error ("Too many failed attempts. Please try again later."), s1, [])
    else (.error ("Room not found"), s1, [])
  | some room =>
    let users1 := room.users ++ [clientId]
    let s1 : IPState :=
      { s with rooms := update s.rooms code (some { room with users := users1 }) }
    let ems := ⟨.room code, .userJoined clientId users1.length⟩ ::
      (if room.type = .voice then [⟨.room code, .userCount users1.length⟩]
       else [])
    (.ok (room.messages.getD [], users1.length), s1, ems)

end IPGateway

/-! ## The Redis-clustered gateway variant (`part_003`) -/

namespace ClusterGateway

def MAX_MESSAGES_PER_ROOM : Nat := 50

def MAX_JOIN_ATTEMPTS : Nat := 5

/-- State of the clustered gateway: local rooms, the shared store
(availability flag plus the `room:{code}` snapshots, with the JSON
round-trip modelled as the identity), the shared
`rate_limit:join:{clientId}` counters, activity stamps and transfers. -/
structure CState where
  rooms : String → Option Room
  redisAvailable : Bool
  redisRooms : String → Option Room
  joinCounts : String → Nat
  roomLastActivity : String → Option Nat
  fileTransfers : String → Option FileTransfer

/-- `checkJoinRateLimit`: atomic increment of the per-client counter in
the shared store (TTL bookkeeping is not needed by the claims), refused
once the incremented count exceeds `MAX_JOIN_ATTEMPTS`. -/
def checkJoinRateLimit (s : CState) (clientId : String) : Bool × CState :=
  let count := s.joinCounts clientId + 1
  let s1 :=
    { s with joinCounts := fun k => if k = clientId then count else s.joinCounts k }
  (decide (count ≤ MAX_JOIN_ATTEMPTS), s1)

/-- `loadRoomFromRedis`: read-through of the room snapshot, caching it in
local memory on a hit. -/
def loadRoomFromRedis (s : CState) (code : String) : Option Room × CState :=
  if s.redisAvailable then
    match s.redisRooms code with
    | some room => (some room, { s with rooms := update s.rooms code (some room) })
    | none => (none, s)
  else (none, s)

/-- `syncRoomToRedis`: write-through of the local room snapshot when the
shared store is available. -/
def syncRoomToRedis (s : CState) (code : String) : CState :=
  match s.rooms code with
  | some room =>
    if s.redisAvailable then
      { s with redisRooms := update s.redisRooms code (some room) }
    else s
  | none => s

/-- `joinRoom` of `part_003`: shared-store rate check first (on every join
attempt), then local lookup with Redis read-through fallback, kind check,
duplicate-free membership append, activity stamp, write-through and the
join broadcasts. -/
def joinRoom (s : CState) (clientId code : String)
    (expectedType : Option RoomType) (now : Nat) :
    Resp JoinOk × CState × List Emission :=
  let rl := checkJoinRateLimit s clientId
  if !rl.1 then
    (.error ("Too many join attempts. Please wait a minute."), rl.2, [])
  else
    let s1 := rl.2
    let lookup :=
      match s1.rooms code with
      | some room => (some room, s1)
      | none => loadRoomFromRedis s1 code
    match lookup.1 with
    | none => (.error ("Room not found"), lookup.2, [])
    | some room =>
      let s2 := lookup.2
      if expectedType.isSome ∧ expectedType ≠ some room.type then
        (.error ("Wrong room type"), s2, [])
      else
        let users1 := if clientId ∈ room.users then room.users
                      else room.users ++ [clientId]
        let room1 := { room with users := users1 }
        let s3 :=
          { s2 with
            rooms := update s2.rooms code (some room1)
            roomLastActivity := update s2.roomLastActivity code (some now) }
        let s4 := syncRoomToRedis s3 code
        let ems := ⟨.room code, .userJoined clientId users1.length⟩ ::
          (if room.type = .voice then [⟨.room code, .userCount users1.length⟩]
           else [])
        (.ok ⟨room.messages.getD [], users1.length, room.type⟩, s4, ems)

/-- `handleSendMessage` of `part_003`: as in the unified gateway but with
the 50-message cap and a Redis write-through instead of the activity
stamp. -/
def handleSendMessage (s : CState) (clientId code text : String) (now : Nat) :
    Resp Unit × CState × List Emission :=
  match s.rooms code with
  | none => (.error ("Not in room"), s, [])
  | some room =>
    if clientId ∉ room.users then (.error ("Not in room"), s, [])
    else if room.users.length < 2 then
      (.error ("Need at least 2 users to chat"), s, [])
    else
      match validateAndSanitizeMessage text with
      | .invalid e => (.error e, s, [])
      | .valid sanitizedText =>
        let message : Message := ⟨clientId, sanitizedText, now⟩
        let room1 :=
          { room with
            messages := room.messages.map
              (fun ms => Gateway.pushCapped MAX_MESSAGES_PER_ROOM ms message) }
        let s1 := { s with rooms := update s.rooms code (some room1) }
        let s2 := syncRoomToRedis s1 code
        (.ok (), s2, [⟨.room code, .newMessage message⟩])

/-- Iterated `handleSendMessage` calls by one client, collecting the
emission trace and the per-call responses. -/
def sendMessages (s : CState) (clientId code : String) :
    List (String × Nat) → CState × List Emission × List (Resp Unit)
  | [] => (s, [], [])
  | (text, now) :: rest =>
    let r := handleSendMessage s clientId code text now
    let r2 := sendMessages r.2.1 clientId code rest
    (r2.1, r.2.2 ++ r2.2.1, r.1 :: r2.2.2)

end ClusterGateway

/-! ## Concrete states and helper runs used by the theorems below -/

def c2s0 : Gateway.GState := ⟨fun _ => none, fun _ => none, fun _ => none⟩

def c2s1 : Gateway.GState :=
  { c2s0 with
    rooms := update c2s0.rooms (toString (codeOfDraw 0))
      (some (Gateway.newRoom ("a") RoomType.text))
    roomLastActivity := update c2s0.roomLastActivity (toString (codeOfDraw 0))
      (some 7) }

def c9s0 : Gateway.GState :=
  ⟨fun _ => none,
   fun id => if id = ("tid") then
       some ⟨("tid"), ("a"), ("b"), ("f.png"), 1, ("image/png"), 1, 0, 0⟩
     else none,
   fun _ => none⟩

def c9d : ChunkData := ⟨("tid"), 5, 1, ("xx"), ("f.png"), 1, ("image/png")⟩

def c3s0 : Gateway.GState :=
  ⟨fun c => if c = ("333333") then
      some ⟨("a"), [("a")], RoomType.text, some [], none⟩
    else none,
   fun _ => none, fun _ => none⟩

def c4s0 : Gateway.GState :=
  ⟨fun c => if c = ("111111") then
      some ⟨("a"), [("a"), ("b")], RoomType.text, some [], none⟩
    else none,
   fun _ => none, fun _ => none⟩

def c10s0 : Gateway.GState :=
  ⟨fun c => if c = ("222221") then
      some ⟨("a"), [("a"), ("b")], RoomType.text, some [], none⟩
    else none,
   fun _ => none, fun _ => none⟩

/-- Iterated delivery of the same `fileChunk` event, collecting emissions. -/
def runChunks (s : Gateway.GState) (clientId : String) (d : ChunkData) :
    Nat → Gateway.GState × List Emission
  | 0 => (s, [])
  | n + 1 =>
    let r := Gateway.handleFileChunk s clientId d
    let r2 := runChunks r.2.1 clientId d n
    (r2.1, r.2.2 ++ r2.2)

def isCompletionEmission (e : Emission) : Bool :=
  match e.payload with
  | .fileTransferComplete _ => true
  | _ => false

/-- Number of `fileTransferComplete` notices in an emission trace. -/
def completionCount (ems : List Emission) : Nat :=
  (ems.filter isCompletionEmission).length

def c7s0 : Gateway.GState :=
  ⟨fun c => if c = ("222222") then
      some ⟨("a"), [("a"), ("b")], RoomType.video, none, none⟩
    else none,
   fun _ => none, fun _ => none⟩

def c7file0 : FileInfo := ⟨("x.png"), (""), ("image/png"), 0⟩

def c7d0 : ChunkData := ⟨("a_0_r"), 0, 0, (""), ("x.png"), 0, ("image/png")⟩

def c7file1 : FileInfo := ⟨("x.png"), (""), ("image/png"), 1⟩

def c7tr1 : FileTransfer :=
  ⟨("a_0_r"), ("a"), ("b"), ("x.png"), 1, ("image/png"), 1, 0, 0⟩

def c7s1w : Gateway.GState :=
  { c7s0 with
    fileTransfers := update c7s0.fileTransfers ("a_0_r") (some c7tr1) }

def c7ems0 : List Emission :=
  [⟨.room ("222222"), .fileTransferStart ("a_0_r") ("x.png") 1 ("image/png") 1⟩]

def c7d1 : ChunkData := ⟨("a_0_r"), 0, 1, (""), ("x.png"), 1, ("image/png")⟩

def c5s0 : IPGateway.IPState :=
  ⟨fun c => if c = ("123456") then
      some ⟨("a"), [("a")], RoomType.text, some [], none⟩
    else none,
   fun ip => if ip = ("9.9.9.9") then
      some ⟨⟨0, 0⟩, ⟨3, 0⟩, some 1000000⟩
    else none⟩

def c5t1 : IPGateway.IPTracker := ⟨⟨0, 0⟩, ⟨3, 0⟩, some 1000000⟩

def c5s1 : IPGateway.IPState :=
  ⟨fun _ => none, fun ip => if ip = ("9.9.9.9") then some c5t1 else none⟩

def c6s0 : IPGateway.IPState := ⟨fun _ => none, fun _ => none⟩

def c6junk : Resp String × IPGateway.IPState := (.error (""), c6s0)

def c6r1 : Resp String × IPGateway.IPState :=
  (IPGateway.createRoom c6s0 ("a") ("1.1.1.1") RoomType.text [0] 0).getD c6junk

def c6r2 : Resp String × IPGateway.IPState :=
  (IPGateway.createRoom c6r1.2 ("a") ("1.1.1.1") RoomType.text [1] 0).getD c6junk

def c6r3 : Resp String × IPGateway.IPState :=
  (IPGateway.createRoom c6r2.2 ("a") ("1.1.1.1") RoomType.text [2] 0).getD c6junk

def c6r4 : Resp String × IPGateway.IPState :=
  (IPGateway.createRoom c6r3.2 ("a") ("1.1.1.1") RoomType.text [3] 0).getD c6junk

def c6r5 : Resp String × IPGateway.IPState :=
  (IPGateway.createRoom c6r4.2 ("a") ("1.1.1.1") RoomType.text [4] 0).getD c6junk

/-- The last `cap` entries of a buffer (`Array.prototype.slice(-cap)`). -/
def lastN (cap : Nat) (l : List Message) : List Message :=
  l.drop (l.length - cap)

def c8s0 : ClusterGateway.CState :=
  ⟨fun c => if c = ("555555") then
      some ⟨("a"), [("a"), ("b")], RoomType.text, some [], none⟩
    else none,
   false, fun _ => none, fun _ => 0, fun _ => none, fun _ => none⟩

def c8msgs : List (String × Nat) := (List.range 101).map (fun i => (("hi"), i))

/-! ## Supporting lemmas -/

@[simp]
theorem update_self {α : Type} (m : String → Option α) (k : String) (v : Option α) :
    update m k v k = v := by
  simp [update]

@[simp]
theorem update_other {α : Type} (m : String → Option α) (k q : String) (v : Option α)
    (h : q ≠ k) : update m k v q = m q := by
  simp [update, h]

theorem dropWhile_length_le {α : Type} (l : List α) (p : α → Bool) :
    (l.dropWhile p).length ≤ l.length :=
  (List.dropWhile_sublist p).length_le

theorem isPrefixCI_length {pat l : List Char} (h : isPrefixCI pat l = true) :
    pat.length ≤ l.length := by
  induction pat generalizing l with
  | nil => simp
  | cons p ps ih =>
    cases l with
    | nil => simp [isPrefixCI] at h
    | cons c cs =>
      simp only [isPrefixCI, Bool.and_eq_true] at h
      have := ih h.2
      simp [List.length_cons]
      omega

theorem dropThroughCI_length {pat l r : List Char}
    (h : dropThroughCI pat l = some r) : r.length + pat.length ≤ l.length := by
  induction l with
  | nil => simp [dropThroughCI] at h
  | cons c cs ih =>
    by_cases hp : isPrefixCI pat (c :: cs) = true
    · simp only [dropThroughCI, hp, if_true, Option.some.injEq] at h
      subst h
      have h2 := isPrefixCI_length hp
      simp only [List.length_drop, List.length_cons] at h2 ⊢
      omega
    · simp only [dropThroughCI, hp] at h
      simp only [Bool.false_eq_true, if_false] at h
      have h3 := ih h
      simp only [List.length_cons]
      omega

theorem matchEqThen_length {l r : List Char}
    (h : matchEqThen l = some r) : r.length < l.length := by
  cases l with
  | nil => simp [matchEqThen] at h
  | cons c cs =>
    by_cases hc : c = '='
    · simp only [matchEqThen, hc, if_true, Option.some.injEq] at h
      subst h
      simp
    · simp [matchEqThen, hc] at h

theorem matchEventHandler_length {l r : List Char}
    (h : matchEventHandler l = some r) : r.length < l.length := by
  match l with
  | [] => simp [matchEventHandler] at h
  | [o] => simp [matchEventHandler] at h
  | o :: n :: rest =>
    simp only [matchEventHandler] at h
    by_cases ho : (o.toLower = 'o' && n.toLower = 'n') = true
    · rw [if_pos ho] at h
      by_cases hw : ((rest.takeWhile isWordChar).isEmpty) = true
      · rw [if_pos hw] at h; simp at h
      · rw [if_neg hw] at h
        have h1 := matchEqThen_length h
        have h2 : ((rest.dropWhile isWordChar).dropWhile isSpaceChar).length ≤
            rest.length :=
          le_trans (dropWhile_length_le _ _) (dropWhile_length_le rest _)
        simp only [List.length_cons]
        omega
    · rw [if_neg ho] at h
      simp at h

theorem matchQuotedBody_length {l r : List Char}
    (h : matchQuotedBody l = some r) : r.length < l.length := by
  cases l with
  | nil => simp [matchQuotedBody] at h
  | cons q r4 =>
    by_cases hq : isQuoteChar q = true
    · simp only [matchQuotedBody, hq, if_true] at h
      cases hb : r4.dropWhile (fun d => !(isQuoteChar d)) with
      | nil => rw [hb] at h; simp at h
      | cons b rest =>
        rw [hb] at h
        simp only [Option.some.injEq] at h
        subst h
        have hb_le : (b :: rest).length ≤ r4.length :=
          hb ▸ dropWhile_length_le r4 _
        simp only [List.length_cons] at hb_le ⊢
        omega
    · simp [matchQuotedBody, hq] at h

theorem matchStyleAttr_length {l r : List Char}
    (h : matchStyleAttr l = some r) : r.length < l.length := by
  unfold matchStyleAttr at h
  by_cases hp : isPrefixCI (String.toList ("style")) l = true
  · rw [if_pos hp] at h
    have hl5 : 5 ≤ l.length := by
      have := isPrefixCI_length hp
      simpa using this
    cases he : matchEqThen ((l.drop 5).dropWhile isSpaceChar) with
    | none => rw [he] at h; simp at h
    | some r2 =>
      rw [he] at h
      have h1 := matchEqThen_length he
      have h2 : ((l.drop 5).dropWhile isSpaceChar).length ≤ l.length - 5 := by
        have := dropWhile_length_le (l.drop 5) isSpaceChar
        simpa [List.length_drop] using this
      have h3 := matchQuotedBody_length h
      have h4 : (r2.dropWhile isSpaceChar).length ≤ r2.length :=
        dropWhile_length_le r2 _
      omega
  · rw [if_neg hp] at h
    simp at h

theorem generateCode_spec {rooms : String → Option Room} {draws : List Nat}
    {code : String} (h : generateCode rooms draws = some code) :
    rooms code = none ∧ ∃ v, 100000 ≤ v ∧ v ≤ 999999 ∧ code = toString v := by
  induction draws with
  | nil => simp [generateCode] at h
  | cons n rest ih =>
    by_cases hc : (rooms (toString (codeOfDraw n))).isSome = true
    · simp only [generateCode, hc, if_true] at h
      exact ih h
    · simp only [generateCode, hc, Bool.false_eq_true, if_false,
        Option.some.injEq] at h
      subst h
      refine ⟨?_, codeOfDraw n, ?_, ?_, rfl⟩
      · cases hz : rooms (toString (codeOfDraw n)) with
        | none => rfl
        | some r => rw [hz] at hc; simp at hc
      · simp [codeOfDraw]
      · have : n % 900000 < 900000 := Nat.mod_lt _ (by omega)
        simp only [codeOfDraw]
        omega

/-! ## Claims -/

/-- C2: for every successful `createRoom` / `createVideoRoom` /
`createVoiceRoom` call, the returned code is a 6-digit numeric string (an
integer in 100000..999999 rendered in decimal) and is distinct from the
code of every room live in the registry at the moment of creation; the
new room's sole member is the creator. -/
theorem C2_createRoom_code (s : Gateway.GState) (clientId : String)
    (ty : RoomType) (draws : List Nat) (now : Nat) (code : String)
    (s1 : Gateway.GState)
    (h : Gateway.createRoom s clientId ty draws now = some (code, s1)) :
    (∃ v, 100000 ≤ v ∧ v ≤ 999999 ∧ code = toString v) ∧
    (∀ c, (s.rooms c).isSome → c ≠ code) ∧
    s1.rooms code = some (Gateway.newRoom clientId ty) ∧
    (Gateway.newRoom clientId ty).users = [clientId] := by
  unfold Gateway.createRoom at h
  cases hg : generateCode s.rooms draws with
  | none => rw [hg] at h; simp at h
  | some code0 =>
    rw [hg] at h
    simp only [Option.some.injEq, Prod.mk.injEq] at h
    obtain ⟨hcode, hs1⟩ := h
    subst hcode
    obtain ⟨hnone, hv⟩ := generateCode_spec hg
    refine ⟨hv, ?_, ?_, rfl⟩
    · intro c hc hceq
      subst hceq
      rw [hnone] at hc
      simp at hc
    · rw [← hs1]
      simp

/-- Witness for C2 at a concrete creation. -/
theorem C2_createRoom_code_witness :
    (∃ v, 100000 ≤ v ∧ v ≤ 999999 ∧ toString (codeOfDraw 0) = toString v) ∧
    (∀ c, (c2s0.rooms c).isSome → c ≠ toString (codeOfDraw 0)) ∧
    c2s1.rooms (toString (codeOfDraw 0)) =
      some (Gateway.newRoom ("a") RoomType.text) ∧
    (Gateway.newRoom ("a") RoomType.text).users = [("a")] :=
  C2_createRoom_code c2s0 ("a") RoomType.text [0] 7 (toString (codeOfDraw 0))
    c2s1 rfl

/-- C9 (implicit): the completion check counts accepted `fileChunk`
events, not distinct chunk indices.  Every event whose transfer id exists
and whose sender matches is accepted and increments `receivedChunks` by
exactly one; completion fires exactly when the count of accepted events
reaches `totalChunks`; and neither the response nor the resulting state
depends on the payload's `chunkIndex`. -/
theorem C9_chunk_count_ignores_index (s : Gateway.GState) (clientId : String)
    (d : ChunkData) (t : FileTransfer)
    (ht : s.fileTransfers d.transferId = some t) (hs : t.sender = clientId) :
    (Gateway.handleFileChunk s clientId d).1 = .ok () ∧
    (t.receivedChunks + 1 = t.totalChunks →
      (Gateway.handleFileChunk s clientId d).2.1.fileTransfers d.transferId =
        none ∧
      (Gateway.handleFileChunk s clientId d).2.2 =
        [⟨.user t.receiver, .fileChunk d⟩,
         ⟨.user t.receiver, .fileTransferComplete d.transferId⟩]) ∧
    (t.receivedChunks + 1 ≠ t.totalChunks →
      (Gateway.handleFileChunk s clientId d).2.1.fileTransfers d.transferId =
        some { t with receivedChunks := t.receivedChunks + 1 } ∧
      (Gateway.handleFileChunk s clientId d).2.2 =
        [⟨.user t.receiver, .fileChunk d⟩]) ∧
    (∀ i j : Nat,
      (Gateway.handleFileChunk s clientId { d with chunkIndex := i }).2.1 =
        (Gateway.handleFileChunk s clientId { d with chunkIndex := j }).2.1 ∧
      (Gateway.handleFileChunk s clientId { d with chunkIndex := i }).1 =
        (Gateway.handleFileChunk s clientId { d with chunkIndex := j }).1) := by
  have hs2 : ¬ (t.sender ≠ clientId) := by simp [hs]
  refine ⟨?_, ?_, ?_, ?_⟩
  · simp only [Gateway.handleFileChunk, ht]
    rw [if_neg hs2]
    split <;> rfl
  · intro hc
    simp [Gateway.handleFileChunk, ht, hs2, hc]
  · intro hc
    simp [Gateway.handleFileChunk, ht, hs2, hc]
  · intro i j
    constructor <;>
      · simp only [Gateway.handleFileChunk, ht]
        rw [if_neg hs2, if_neg hs2]
        split <;> rfl

/-- Witness for C9: a single accepted chunk event with an arbitrary
`chunkIndex` completes a one-chunk transfer. -/
theorem C9_chunk_count_ignores_index_witness :
    (Gateway.handleFileChunk c9s0 ("a") c9d).1 = .ok () ∧
    (Gateway.handleFileChunk c9s0 ("a") c9d).2.1.fileTransfers ("tid") = none ∧
    (Gateway.handleFileChunk c9s0 ("a") c9d).2.2 =
      [⟨.user ("b"), .fileChunk c9d⟩,
       ⟨.user ("b"), .fileTransferComplete ("tid")⟩] := by
  have h := C9_chunk_count_ignores_index c9s0 ("a") c9d
    ⟨("tid"), ("a"), ("b"), ("f.png"), 1, ("image/png"), 1, 0, 0⟩ rfl rfl
  exact ⟨h.1, (h.2.1 rfl).1, (h.2.1 rfl).2⟩

theorem users_filter_ne_nil_of_length_ne_zero {l : List String}
    (h : ¬ l.length = 0) : l ≠ [] := by
  intro habs
  subst habs
  simp at h

/-- C3: invariant over all reachable registry states — no operation
leaves a room with an empty member list in the registry (whichever
operation removes the last member deletes the room in the same step), and
a `leaveRoom` by a non-member (or for an absent room) changes nothing and
is not an error. -/
theorem C3_no_empty_room_survives :
    (∀ s s1 : Gateway.GState, Gateway.Step s s1 →
      Gateway.RoomsNonempty s → Gateway.RoomsNonempty s1) ∧
    (∀ (s : Gateway.GState) (clientId code : String) (room : Room),
      s.rooms code = some room → clientId ∉ room.users →
      Gateway.leaveRoom s clientId code = (.ok (), s, [])) ∧
    (∀ (s : Gateway.GState) (clientId code : String),
      s.rooms code = none →
      Gateway.leaveRoom s clientId code = (.ok (), s, [])) := by
  refine ⟨?_, ?_, ?_⟩
  · intro s s1 hstep hinv
    unfold Gateway.RoomsNonempty at hinv ⊢
    cases hstep with
    | create clientId ty draws now code0 s1 h =>
      unfold Gateway.createRoom at h
      cases hg : generateCode s.rooms draws with
      | none => rw [hg] at h; simp at h
      | some code1 =>
        rw [hg] at h
        simp only [Option.some.injEq, Prod.mk.injEq] at h
        obtain ⟨hc, hs1⟩ := h
        subst hs1
        intro c r hr
        dsimp only at hr
        by_cases hcc : c = code1
        · subst hcc
          rw [update_self] at hr
          cases hr
          simp [Gateway.newRoom]
        · rw [update_other _ _ _ _ hcc] at hr
          exact hinv c r hr
    | join clientId code0 ety now =>
      unfold Gateway.joinRoom
      cases hrm : s.rooms code0 with
      | none => exact hinv
      | some room0 =>
        dsimp only
        by_cases hmt : ety.isSome ∧ ety ≠ some room0.type
        · rw [if_pos hmt]
          exact hinv
        · rw [if_neg hmt]
          intro c r hr
          dsimp only at hr
          by_cases hcc : c = code0
          · subst hcc
            rw [update_self] at hr
            cases hr
            have hne := hinv _ room0 hrm
            by_cases hmem : clientId ∈ room0.users
            · simpa [hmem] using hne
            · simp [hmem]
          · rw [update_other _ _ _ _ hcc] at hr
            exact hinv c r hr
    | send clientId code0 text now =>
      unfold Gateway.handleSendMessage
      cases hrm : s.rooms code0 with
      | none => exact hinv
      | some room0 =>
        dsimp only
        by_cases hmem : clientId ∉ room0.users
        · rw [if_pos hmem]
          exact hinv
        · rw [if_neg hmem]
          by_cases hlen : room0.users.length < 2
          · rw [if_pos hlen]
            exact hinv
          · rw [if_neg hlen]
            cases hv : validateAndSanitizeMessage text with
            | invalid e => exact hinv
            | valid st =>
              intro c r hr
              dsimp only at hr
              by_cases hcc : c = code0
              · subst hcc
                rw [update_self] at hr
                cases hr
                exact hinv _ room0 hrm
              · rw [update_other _ _ _ _ hcc] at hr
                exact hinv c r hr
    | sendFile clientId code0 file now randSuffix =>
      unfold Gateway.handleSendFile
      cases hrm : s.rooms code0 with
      | none => exact hinv
      | some room0 =>
        dsimp only
        split
        · exact hinv
        split
        · exact hinv
        split
        · exact hinv
        split
        · exact hinv
        next r0 =>
          split
          · exact hinv
          · exact hinv
    | chunk clientId data =>
      unfold Gateway.handleFileChunk
      split
      · exact hinv
      split
      · exact hinv
      split
      · exact hinv
      · exact hinv
    | leave clientId code0 =>
      unfold Gateway.leaveRoom
      cases hrm : s.rooms code0 with
      | none => exact hinv
      | some room0 =>
        dsimp only
        by_cases hmem : clientId ∉ room0.users
        · rw [if_pos hmem]
          exact hinv
        · rw [if_neg hmem]
          by_cases hlen : (room0.users.filter (fun i => i ≠ clientId)).length = 0
          · rw [if_pos hlen]
            intro c r hr
            dsimp only [Gateway.destroyRoom] at hr
            by_cases hcc : c = code0
            · subst hcc
              rw [update_self] at hr
              cases hr
            · rw [update_other _ _ _ _ hcc] at hr
              rw [update_other _ _ _ _ hcc] at hr
              exact hinv c r hr
          · rw [if_neg hlen]
            intro c r hr
            dsimp only at hr
            by_cases hcc : c = code0
            · subst hcc
              rw [update_self] at hr
              cases hr
              exact users_filter_ne_nil_of_length_ne_zero hlen
            · rw [update_other _ _ _ _ hcc] at hr
              exact hinv c r hr
    | endCall clientId code0 =>
      unfold Gateway.handleEndCall Gateway.destroyRoom
      intro c r hr
      dsimp only at hr
      by_cases hcc : c = code0
      · subst hcc
        rw [update_self] at hr
        cases hr
      · rw [update_other _ _ _ _ hcc] at hr
        exact hinv c r hr
    | disconnect clientId =>
      unfold Gateway.handleDisconnect
      intro c r hr
      dsimp only at hr
      cases hrm : s.rooms c with
      | none => rw [hrm] at hr; simp at hr
      | some room0 =>
        rw [hrm] at hr
        dsimp only at hr
        by_cases hmem : clientId ∈ room0.users
        · rw [if_pos hmem] at hr
          by_cases hlen : (room0.users.filter (fun i => i ≠ clientId)).length = 0
          · rw [if_pos hlen] at hr
            simp at hr
          · rw [if_neg hlen] at hr
            cases hr
            exact users_filter_ne_nil_of_length_ne_zero hlen
        · rw [if_neg hmem] at hr
          cases hr
          exact hinv c _ hrm
    | cleanup now =>
      unfold Gateway.cleanupInactiveRooms
      intro c r hr
      dsimp only at hr
      cases hrm : s.rooms c with
      | none => rw [hrm] at hr; simp at hr
      | some room0 =>
        rw [hrm] at hr
        dsimp only at hr
        by_cases hcond : room0.users.length = 0 ∨
            now - (s.roomLastActivity c).getD 0 > Gateway.ROOM_INACTIVITY_TIMEOUT
        · rw [if_pos hcond] at hr
          cases hr
        · rw [if_neg hcond] at hr
          cases hr
          exact hinv c _ hrm
  · intro s clientId code room hroom hmem
    unfold Gateway.leaveRoom
    rw [hroom]
    dsimp only
    rw [if_pos hmem]
  · intro s clientId code hroom
    unfold Gateway.leaveRoom
    rw [hroom]

/-- Witness for C3: the invariant survives the step in which the only
member of a room leaves (the room is deleted in the same step), and a
non-member leave is a no-op. -/
theorem C3_no_empty_room_survives_witness :
    Gateway.RoomsNonempty (Gateway.leaveRoom c3s0 ("a") ("333333")).2.1 ∧
    Gateway.leaveRoom c3s0 ("b") ("333333") = (.ok (), c3s0, []) := by
  constructor
  · exact C3_no_empty_room_survives.1 c3s0 _
      (Gateway.Step.leave c3s0 ("a") ("333333"))
      (by
        intro c r hr
        unfold c3s0 at hr
        dsimp only at hr
        by_cases hc : c = ("333333")
        · rw [if_pos hc] at hr
          cases hr
          simp
        · rw [if_neg hc] at hr
          cases hr)
  · exact C3_no_empty_room_survives.2.1 c3s0 ("b") ("333333")
      ⟨("a"), [("a")], RoomType.text, some [], none⟩ (by simp [c3s0]) (by simp)

/-- Counterexample to C4 as stated: with two members in the room,
`sendMessage` is still rejected when the text fails message validation
(here the text `eval(x)` matches a dangerous pattern after sanitization),
so membership ≥ 2 alone does not make the request accepted. -/
theorem C4_counterexample :
    (c4s0.rooms ("111111")).map Room.users = some [("a"), ("b")] ∧
    (Gateway.handleSendMessage c4s0 ("a") ("111111") ("eval(x)") 0).1 =
      .error ("Message contains potentially dangerous content") ∧
    (Gateway.handleSendMessage c4s0 ("a") ("111111") ("eval(x)") 0).1 ≠
      .ok () := by
  refine ⟨rfl, ?_, ?_⟩ <;> decide

/-- C4 (amended): a `sendMessage` from a member of an existing room is
rejected with `InsufficientMembers` and changes nothing when membership is
below 2; with membership at least 2 it is accepted — provided the text
passes message validation — and then the message is broadcast to the room
and (for rooms with a message buffer, i.e. text rooms) appended to the
stored buffer. -/
theorem C4_send_message_gate (s : Gateway.GState) (clientId code text : String)
    (now : Nat) (room : Room) (hroom : s.rooms code = some room)
    (hmem : clientId ∈ room.users) :
    (room.users.length < 2 →
      Gateway.handleSendMessage s clientId code text now =
        (.error ("Need at least 2 users to chat"), s, [])) ∧
    (2 ≤ room.users.length →
      ∀ st, validateAndSanitizeMessage text = .valid st →
        (Gateway.handleSendMessage s clientId code text now).1 = .ok () ∧
        (Gateway.handleSendMessage s clientId code text now).2.2 =
          [⟨.room code, .newMessage ⟨clientId, st, now⟩⟩] ∧
        (Gateway.handleSendMessage s clientId code text now).2.1.rooms code =
          some { room with
            messages := room.messages.map (fun ms =>
              Gateway.pushCapped Gateway.MAX_MESSAGES_PER_ROOM ms
                ⟨clientId, st, now⟩) }) := by
  have hmem2 : ¬ clientId ∉ room.users := by simp [hmem]
  constructor
  · intro hlen
    unfold Gateway.handleSendMessage
    rw [hroom]
    dsimp only
    rw [if_neg hmem2, if_pos hlen]
  · intro hlen st hv
    have hlen2 : ¬ room.users.length < 2 := by omega
    unfold Gateway.handleSendMessage
    rw [hroom]
    dsimp only
    rw [if_neg hmem2, if_neg hlen2, hv]
    exact ⟨rfl, rfl, by simp⟩

/-- Witness for the amended C4: both the under-populated rejection and an
accepted send in a two-member room at concrete inputs. -/
theorem C4_send_message_gate_witness :
    (Gateway.handleSendMessage c3s0 ("a") ("333333") ("hi") 4 =
      (.error ("Need at least 2 users to chat"), c3s0, [])) ∧
    ((Gateway.handleSendMessage c4s0 ("a") ("111111") ("hi") 4).1 = .ok () ∧
     (Gateway.handleSendMessage c4s0 ("a") ("111111") ("hi") 4).2.2 =
       [⟨.room ("111111"), .newMessage ⟨("a"), ("hi"), 4⟩⟩]) := by
  constructor
  · exact (C4_send_message_gate c3s0 ("a") ("333333") ("hi") 4
      ⟨("a"), [("a")], RoomType.text, some [], none⟩ rfl (by decide)).1
      (by decide)
  · have h := (C4_send_message_gate c4s0 ("a") ("111111") ("hi") 4
      ⟨("a"), [("a"), ("b")], RoomType.text, some [], none⟩ rfl (by decide)).2
      (by decide) ("hi") (by decide)
    exact ⟨h.1, h.2.1⟩

/-- C10 (implicit): on a successful `sendMessage` the stored and broadcast
text is the sanitized transform of the input (trimmed, then stripped of
script tags, HTML tags, `javascript:` URLs, event-handler attributes and
style attributes, in that order), so the delivered text can differ from
the submitted text; sanitization precedes storage, and an input that still
matches a dangerous pattern after sanitization is rejected with an error
rather than delivered. -/
theorem C10_sanitized_delivery (s : Gateway.GState) (clientId code text : String)
    (now : Nat) (room : Room) (hroom : s.rooms code = some room)
    (hmem : clientId ∈ room.users) (hlen : 2 ≤ room.users.length) :
    (∀ st, validateAndSanitizeMessage text = .valid st →
      st = String.mk (sanitizeChars (jsTrim text.toList)) ∧
      (Gateway.handleSendMessage s clientId code text now).1 = .ok () ∧
      (Gateway.handleSendMessage s clientId code text now).2.2 =
        [⟨.room code, .newMessage ⟨clientId, st, now⟩⟩] ∧
      (Gateway.handleSendMessage s clientId code text now).2.1.rooms code =
        some { room with
          messages := room.messages.map (fun ms =>
            Gateway.pushCapped Gateway.MAX_MESSAGES_PER_ROOM ms
              ⟨clientId, st, now⟩) }) ∧
    (hasDangerousPattern (sanitizeChars (jsTrim text.toList)) = true →
      ∃ e, (Gateway.handleSendMessage s clientId code text now).1 = .error e) := by
  constructor
  · intro st hv
    refine ⟨?_, (C4_send_message_gate s clientId code text now room hroom
      hmem).2 hlen st hv⟩
    unfold validateAndSanitizeMessage at hv
    by_cases h0 : text = ("")
    · rw [if_pos h0] at hv
      cases hv
    · rw [if_neg h0] at hv
      dsimp only at hv
      by_cases h1 : (jsTrim text.toList).length = 0
      · rw [if_pos h1] at hv
        cases hv
      · rw [if_neg h1] at hv
        by_cases h2 : (jsTrim text.toList).length > MAX_MESSAGE_LENGTH
        · rw [if_pos h2] at hv
          cases hv
        · rw [if_neg h2] at hv
          by_cases h3 : hasDangerousPattern (sanitizeChars (jsTrim text.toList)) = true
          · rw [if_pos h3] at hv
            cases hv
          · rw [if_neg h3] at hv
            cases hv
            rfl
  · intro hd
    unfold Gateway.handleSendMessage
    rw [hroom]
    dsimp only
    have hmem2 : ¬ clientId ∉ room.users := by simp [hmem]
    have hlen2 : ¬ room.users.length < 2 := by omega
    rw [if_neg hmem2, if_neg hlen2]
    cases hv : validateAndSanitizeMessage text with
    | invalid e => exact ⟨e, rfl⟩
    | valid st =>
      exfalso
      unfold validateAndSanitizeMessage at hv
      by_cases h0 : text = ("")
      · rw [if_pos h0] at hv
        cases hv
      · rw [if_neg h0] at hv
        dsimp only at hv
        by_cases h1 : (jsTrim text.toList).length = 0
        · rw [if_pos h1] at hv
          cases hv
        · rw [if_neg h1] at hv
          by_cases h2 : (jsTrim text.toList).length > MAX_MESSAGE_LENGTH
          · rw [if_pos h2] at hv
            cases hv
          · rw [if_neg h2] at hv
            rw [if_pos hd] at hv
            cases hv

/-- Witness for C10: a message with an HTML tag is delivered sanitized
(differing from the submitted text), and a dangerous input is rejected. -/
theorem C10_sanitized_delivery_witness :
    (String.mk (sanitizeChars (jsTrim ("hello <b>world</b>").toList)) =
      ("hello world") ∧
     (Gateway.handleSendMessage c10s0 ("a") ("222221") ("hello <b>world</b>")
        0).1 = .ok () ∧
     (Gateway.handleSendMessage c10s0 ("a") ("222221") ("hello <b>world</b>")
        0).2.2 =
       [⟨.room ("222221"), .newMessage ⟨("a"), ("hello world"), 0⟩⟩]) ∧
    (∃ e, (Gateway.handleSendMessage c10s0 ("a") ("222221") ("eval(x)") 0).1 =
      .error e) := by
  have h := C10_sanitized_delivery c10s0 ("a") ("222221") ("hello <b>world</b>")
    0 ⟨("a"), [("a"), ("b")], RoomType.text, some [], none⟩ rfl (by decide)
    (by decide)
  have h2 := C10_sanitized_delivery c10s0 ("a") ("222221") ("eval(x)")
    0 ⟨("a"), [("a"), ("b")], RoomType.text, some [], none⟩ rfl (by decide)
    (by decide)
  have hv := h.1 ("hello world") (by decide)
  exact ⟨⟨hv.1.symm, hv.2.1, hv.2.2.1⟩, h2.2 (by decide)⟩

theorem update_update {α : Type} (m : String → Option α) (k : String)
    (v w : Option α) : update (update m k v) k w = update m k w := by
  funext q
  by_cases h : q = k <;> simp [update, h]

theorem update_of_lookup {α : Type} (m : String → Option α) (k : String)
    {v : Option α} (h : m k = v) : update m k v = m := by
  funext q
  by_cases hq : q = k <;> simp [update, hq, h.symm]

theorem runChunks_stable (clientId : String) (d : ChunkData) (n : Nat) :
    ∀ s : Gateway.GState, s.fileTransfers d.transferId = none →
      runChunks s clientId d n = (s, []) := by
  induction n with
  | zero => intro s h; rfl
  | succ n ih =>
    intro s h
    unfold runChunks
    unfold Gateway.handleFileChunk
    rw [h]
    dsimp only
    rw [ih s h]
    rfl

theorem runChunks_under (clientId : String) (d : ChunkData) (n : Nat) :
    ∀ (s : Gateway.GState) (t : FileTransfer),
      s.fileTransfers d.transferId = some t → t.sender = clientId →
      t.receivedChunks + n < t.totalChunks →
      (runChunks s clientId d n).1.fileTransfers =
        update s.fileTransfers d.transferId
          (some { t with receivedChunks := t.receivedChunks + n }) ∧
      (runChunks s clientId d n).2 =
        List.replicate n ⟨.user t.receiver, .fileChunk d⟩ := by
  induction n with
  | zero =>
    intro s t ht hs hlt
    constructor
    · exact (update_of_lookup _ _ ht).symm
    · rfl
  | succ n ih =>
    intro s t ht hs hlt
    have hs2 : ¬ (t.sender ≠ clientId) := by simp [hs]
    have hne : ¬ (t.receivedChunks + 1 = t.totalChunks) := by omega
    unfold runChunks Gateway.handleFileChunk
    rw [ht]
    dsimp only
    rw [if_neg hs2, if_neg hne]
    dsimp only
    have ih2 := ih { s with fileTransfers := update s.fileTransfers d.transferId (some { t with receivedChunks := t.receivedChunks + 1 }) } { t with receivedChunks := t.receivedChunks + 1 } (by dsimp only; rw [update_self]) hs (by dsimp only; omega)
    constructor
    · rw [ih2.1]
      dsimp only
      rw [update_update]
      have harith : t.receivedChunks + 1 + n = t.receivedChunks + (n + 1) := by
        omega
      rw [harith]
    · rw [ih2.2]
      simp [List.replicate_succ]

theorem runChunks_complete (clientId : String) (d : ChunkData) (n : Nat) :
    ∀ (s : Gateway.GState) (t : FileTransfer),
      s.fileTransfers d.transferId = some t → t.sender = clientId →
      t.receivedChunks < t.totalChunks →
      t.receivedChunks + n = t.totalChunks →
      (runChunks s clientId d n).1.fileTransfers =
        update s.fileTransfers d.transferId none ∧
      (runChunks s clientId d n).2 =
        List.replicate n ⟨.user t.receiver, .fileChunk d⟩ ++
          [⟨.user t.receiver, .fileTransferComplete d.transferId⟩] := by
  induction n with
  | zero => intro s t ht hs hlt heq; omega
  | succ n ih =>
    intro s t ht hs hlt heq
    have hs2 : ¬ (t.sender ≠ clientId) := by simp [hs]
    unfold runChunks Gateway.handleFileChunk
    rw [ht]
    dsimp only
    by_cases hfin : t.receivedChunks + 1 = t.totalChunks
    · have hn0 : n = 0 := by omega
      subst hn0
      rw [if_neg hs2, if_pos hfin]
      dsimp only
      constructor
      · rfl
      · rfl
    · rw [if_neg hs2, if_neg hfin]
      dsimp only
      have ih2 := ih { s with fileTransfers := update s.fileTransfers d.transferId (some { t with receivedChunks := t.receivedChunks + 1 }) } { t with receivedChunks := t.receivedChunks + 1 } (by dsimp only; rw [update_self]) hs (by dsimp only; omega) (by dsimp only; omega)
      constructor
      · rw [ih2.1]
        dsimp only
        rw [update_update]
      · rw [ih2.2]
        simp [List.replicate_succ]

/-- C7 (amended: declared size at least one byte, so at least one chunk):
an accepted `sendFile` with size `S` returns and records
`totalChunks = ceil(S / 64 KiB)`; starting from `receivedChunks = 0`,
delivering exactly `totalChunks` matching `fileChunk` events from the
sender drives `receivedChunks` up to `totalChunks` (after `k < totalChunks`
events the record holds `receivedChunks = k`), produces exactly one
`fileTransferComplete` emission to the receiver, and frees the transfer
record, after which further duplicate events are rejected and emit
nothing. -/
theorem C7_file_transfer_roundtrip (s : Gateway.GState)
    (clientId code : String) (file : FileInfo) (now : Nat) (randSuffix : String)
    (tid : String) (total : Nat) (s1 : Gateway.GState) (ems0 : List Emission)
    (hsf : Gateway.handleSendFile s clientId code file now randSuffix =
      (.ok (tid, total), s1, ems0))
    (hS : 1 ≤ file.size) :
    total = (file.size + Gateway.CHUNK_SIZE - 1) / Gateway.CHUNK_SIZE ∧
    1 ≤ total ∧
    ∃ receiver : String,
      s1.fileTransfers tid =
        some ⟨tid, clientId, receiver, file.name, file.size, file.type,
          total, 0, now⟩ ∧
      ∀ d : ChunkData, d.transferId = tid →
        (∀ k, k < total →
          (runChunks s1 clientId d k).1.fileTransfers tid =
            some ⟨tid, clientId, receiver, file.name, file.size, file.type,
              total, k, now⟩) ∧
        (runChunks s1 clientId d total).1.fileTransfers tid = none ∧
        (runChunks s1 clientId d total).2 =
          List.replicate total ⟨.user receiver, .fileChunk d⟩ ++
            [⟨.user receiver, .fileTransferComplete tid⟩] ∧
        completionCount (runChunks s1 clientId d total).2 = 1 ∧
        (∀ m, runChunks (runChunks s1 clientId d total).1 clientId d m =
          ((runChunks s1 clientId d total).1, [])) := by
  unfold Gateway.handleSendFile at hsf
  cases hrm : s.rooms code with
  | none => rw [hrm] at hsf; cases hsf
  | some room =>
    rw [hrm] at hsf
    dsimp only at hsf
    by_cases hmem : clientId ∉ room.users
    · rw [if_pos hmem] at hsf; cases hsf
    rw [if_neg hmem] at hsf
    by_cases hlen : room.users.length < 2
    · rw [if_pos hlen] at hsf; cases hsf
    rw [if_neg hlen] at hsf
    by_cases hsz : file.size > Gateway.MAX_FILE_SIZE
    · rw [if_pos hsz] at hsf; cases hsf
    rw [if_neg hsz] at hsf
    cases hvf : Gateway.validateFileType file.name file.type with
    | error e => rw [hvf] at hsf; cases hsf
    | ok u =>
      cases u
      rw [hvf] at hsf
      dsimp only at hsf
      by_cases hot : (room.users.filter (fun i => i ≠ clientId)).length ≠ 1
      · rw [if_pos hot] at hsf; cases hsf
      rw [if_neg hot] at hsf
      have h1 := congrArg Prod.fst hsf
      have hstate := congrArg (fun p => p.2.1) hsf
      dsimp only at h1 hstate
      rw [Resp.ok.injEq, Prod.mk.injEq] at h1
      obtain ⟨htid, htot⟩ := h1
      have htotal1 : 1 ≤ total := by
        rw [← htot]
        have hcs : Gateway.CHUNK_SIZE = 65536 := rfl
        rw [hcs]
        omega
      have hrec : s1.fileTransfers tid = some ⟨tid, clientId, (room.users.filter (fun i => i ≠ clientId)).getD 0 (""), file.name, file.size, file.type, total, 0, now⟩ := by
        rw [← hstate]
        dsimp only
        rw [htid, htot, update_self]
      refine ⟨htot.symm, htotal1, (room.users.filter (fun i => i ≠ clientId)).getD 0 (""), hrec, ?_⟩
      · intro d hd
        rw [← hd] at hrec
        have hunder := fun k (hk : k < total) =>
          runChunks_under clientId d k s1 _ hrec rfl (by dsimp only; omega)
        have hcomp := runChunks_complete clientId d total s1 _ hrec rfl
          (by dsimp only; omega) (by dsimp only; omega)
        refine ⟨?_, ?_, ?_, ?_, ?_⟩
        · intro k hk
          rw [(hunder k hk).1]
          rw [hd]
          rw [update_self]
          dsimp only
          rw [Nat.zero_add]
        · rw [hcomp.1, hd, update_self]
        · rw [hcomp.2, hd]
        · rw [hcomp.2]
          unfold completionCount
          rw [List.filter_append]
          have hrel : ∀ (tg : EmitTarget) (n : Nat),
              List.filter isCompletionEmission
                (List.replicate n ⟨tg, .fileChunk d⟩) = [] := by
            intro tg n
            apply List.filter_eq_nil.mpr
            intro e he
            rw [List.eq_of_mem_replicate he]
            simp [isCompletionEmission]
          rw [hrel]
          rfl
        · intro m
          have hnone : (runChunks s1 clientId d total).1.fileTransfers
              d.transferId = none := by
            rw [hcomp.1, update_self]
          exact runChunks_stable clientId d m _ hnone

/-- Counterexample to C7 as stated: a `sendFile` with declared size 0 is
accepted with `totalChunks = ceil(0 / 64 KiB) = 0`, but after delivering
exactly `totalChunks` (that is, zero) `fileChunk` events no
`fileTransferComplete` is ever emitted and the transfer record is not
freed — the completion check only runs inside the chunk handler, whose
counter starts above `totalChunks = 0` from the first event on. -/
theorem C7_counterexample :
    (Gateway.handleSendFile c7s0 ("a") ("222222") c7file0 0 ("r")).1 =
      .ok (("a_0_r"), 0) ∧
    ((Gateway.handleSendFile c7s0 ("a") ("222222") c7file0 0
      ("r")).2.1.fileTransfers ("a_0_r")).isSome = true ∧
    (runChunks (Gateway.handleSendFile c7s0 ("a") ("222222") c7file0 0
      ("r")).2.1 ("a") c7d0 0).2 = [] ∧
    completionCount [] = 0 := by
  refine ⟨by decide, by decide, rfl, rfl⟩

/-- Witness for the amended C7 at a one-byte file (one chunk). -/
theorem C7_file_transfer_roundtrip_witness :
    ∃ receiver, c7s1w.fileTransfers ("a_0_r") =
        some ⟨("a_0_r"), ("a"), receiver, ("x.png"), 1, ("image/png"), 1, 0, 0⟩ ∧
      (runChunks c7s1w ("a") c7d1 1).1.fileTransfers ("a_0_r") = none ∧
      completionCount (runChunks c7s1w ("a") c7d1 1).2 = 1 := by
  obtain ⟨-, -, receiver, hrec, hrest⟩ :=
    C7_file_transfer_roundtrip c7s0 ("a") ("222222") c7file1 0 ("r")
      ("a_0_r") 1 c7s1w c7ems0 (by rfl) (by decide)
  have h := hrest c7d1 rfl
  exact ⟨receiver, hrec, h.2.1, h.2.2.2.1⟩

theorem checkRateLimitTracker_blocked (now : Nat) (ty : IPGateway.RLType)
    (t : IPGateway.IPTracker) (b : Nat) (hb : t.blockedUntil = some b)
    (hlt : now < b) :
    IPGateway.checkRateLimitTracker now ty t = (false, t) := by
  unfold IPGateway.checkRateLimitTracker
  rw [hb]
  dsimp only
  rw [if_pos hlt]

theorem checkRateLimitTracker_join_breach (now : Nat) (t : IPGateway.IPTracker)
    (hnb : ∀ b, t.blockedUntil = some b → b ≤ now)
    (hcnt : (if now > t.joinAttempts.resetTime then
        IPGateway.RateLimit.mk 0 (now + 60000) else t.joinAttempts).count ≥ 3) :
    (IPGateway.checkRateLimitTracker now .join t).1 = false ∧
    (IPGateway.checkRateLimitTracker now .join t).2.blockedUntil =
      some (now + 600000) := by
  obtain ⟨cg, ja, bu⟩ := t
  have hbody :
      (IPGateway.checkRateLimitTracker.checkRateLimitBody now .join ⟨cg, ja, bu⟩).1 = false ∧
      (IPGateway.checkRateLimitTracker.checkRateLimitBody now .join
        ⟨cg, ja, bu⟩).2.blockedUntil = some (now + 600000) := by
    unfold IPGateway.checkRateLimitTracker.checkRateLimitBody
    dsimp only [IPGateway.limitOf, IPGateway.maxCountOf] at hcnt ⊢
    rw [if_pos hcnt]
    exact ⟨rfl, rfl⟩
  unfold IPGateway.checkRateLimitTracker
  cases bu with
  | none => exact hbody
  | some b =>
    have hle := hnb b rfl
    dsimp only
    rw [if_neg (by omega)]
    exact hbody

theorem checkRateLimitTracker_join_reset (now : Nat) (t : IPGateway.IPTracker)
    (b : Nat) (hb : t.blockedUntil = some b) (hexp : b ≤ now)
    (hwin : now > t.joinAttempts.resetTime) :
    IPGateway.checkRateLimitTracker now .join t =
      (true, { t with joinAttempts := ⟨1, now + 60000⟩ }) := by
  obtain ⟨cg, ja, bu⟩ := t
  dsimp only at hb hwin
  subst hb
  unfold IPGateway.checkRateLimitTracker
  dsimp only
  rw [if_neg (by omega)]
  unfold IPGateway.checkRateLimitTracker.checkRateLimitBody
  dsimp only [IPGateway.limitOf, IPGateway.maxCountOf]
  rw [if_pos hwin, if_neg (by simp)]
  rfl

/-- Counterexample to C5 as stated: an IP under an active hard block
(blocked until 1000000, now = 5) can still join an existing room
successfully, because the join rate limiter — and with it the block —
is consulted only when the room lookup fails.  So not every join attempt
during the block is rejected. -/
theorem C5_counterexample :
    (c5s0.ipTracking ("9.9.9.9")).map IPGateway.IPTracker.blockedUntil =
      some (some 1000000) ∧
    (5 : Nat) < 1000000 ∧
    ((IPGateway.joinRoom c5s0 ("b") ("9.9.9.9") ("123456") RoomType.text
      5).1).isOk = true := by
  exact ⟨rfl, by decide, by decide⟩

/-- C5 (amended: the block governs the join attempts that reach the
limiter, i.e. attempts for a code with no live room): once failed join
attempts exceed the join ceiling the key is placed under a 10-minute hard
block; while `now` is before the block's expiry every join attempt for a
nonexistent code is rejected — the block check precedes and overrides the
window-reset logic, so this holds even when the ordinary window has
elapsed — and after the block expires join attempts are again governed by
the window counter. -/
theorem C5_hard_block (now : Nat) (t : IPGateway.IPTracker) :
    (∀ (ty : IPGateway.RLType) (b : Nat), t.blockedUntil = some b → now < b →
      IPGateway.checkRateLimitTracker now ty t = (false, t)) ∧
    (∀ (s : IPGateway.IPState) (clientId ip code : String)
       (ety : RoomType) (b : Nat),
      s.rooms code = none → s.ipTracking ip = some t →
      t.blockedUntil = some b → now < b →
      IPGateway.joinRoom s clientId ip code ety now =
        (.error ("Too many failed attempts. Please try again later."),
         ⟨s.rooms, update s.ipTracking ip (some t)⟩, [])) ∧
    ((∀ b, t.blockedUntil = some b → b ≤ now) →
      (if now > t.joinAttempts.resetTime then
          IPGateway.RateLimit.mk 0 (now + 60000) else t.joinAttempts).count ≥ 3 →
      (IPGateway.checkRateLimitTracker now .join t).1 = false ∧
      (IPGateway.checkRateLimitTracker now .join t).2.blockedUntil =
        some (now + 600000)) ∧
    (∀ b, t.blockedUntil = some b → b ≤ now →
      now > t.joinAttempts.resetTime →
      IPGateway.checkRateLimitTracker now .join t =
        (true, { t with joinAttempts := ⟨1, now + 60000⟩ })) := by
  refine ⟨?_, ?_, ?_, ?_⟩
  · intro ty b hb hlt
    exact checkRateLimitTracker_blocked now ty t b hb hlt
  · intro s clientId ip code ety b hroom htr hb hlt
    unfold IPGateway.joinRoom
    rw [hroom]
    dsimp only [IPGateway.checkRateLimit]
    rw [htr]
    dsimp only [Option.getD_some]
    rw [checkRateLimitTracker_blocked now .join t b hb hlt]
    rfl
  · intro hnb hcnt
    exact checkRateLimitTracker_join_breach now t hnb hcnt
  · intro b hb hexp hwin
    exact checkRateLimitTracker_join_reset now t b hb hexp hwin

/-- Witness for the amended C5: a blocked key whose ordinary window has
long elapsed (`resetTime = 0 < now = 5`) is still rejected on a
nonexistent-code join attempt, and after block expiry the window governs
again. -/
theorem C5_hard_block_witness :
    IPGateway.joinRoom c5s1 ("b") ("9.9.9.9") ("777777") RoomType.text 5 =
      (.error ("Too many failed attempts. Please try again later."),
       ⟨c5s1.rooms, update c5s1.ipTracking ("9.9.9.9") (some c5t1)⟩, []) ∧
    IPGateway.checkRateLimitTracker 1000005 .join c5t1 =
      (true, { c5t1 with joinAttempts := ⟨1, 1000005 + 60000⟩ }) := by
  constructor
  · exact (C5_hard_block 5 c5t1).2.1 c5s1 ("b") ("9.9.9.9") ("777777")
      RoomType.text 1000000 rfl rfl rfl (by decide)
  · exact (C5_hard_block 1000005 c5t1).2.2.2 1000000 rfl (by decide) (by decide)

theorem checkRateLimitTracker_gen_allowed (now : Nat) (t : IPGateway.IPTracker)
    (hnb : t.blockedUntil = none)
    (hwin : ¬ now > t.codeGenerations.resetTime)
    (hcnt : t.codeGenerations.count < 5) :
    IPGateway.checkRateLimitTracker now .generation t =
      (true, { t with codeGenerations :=
        ⟨t.codeGenerations.count + 1, t.codeGenerations.resetTime⟩ }) := by
  obtain ⟨cg, ja, bu⟩ := t
  dsimp only at hnb hwin hcnt
  subst hnb
  unfold IPGateway.checkRateLimitTracker
  unfold IPGateway.checkRateLimitTracker.checkRateLimitBody
  dsimp only [IPGateway.limitOf, IPGateway.maxCountOf]
  rw [if_neg hwin, if_neg (by omega)]
  rfl

theorem checkRateLimitTracker_gen_refused (now : Nat) (t : IPGateway.IPTracker)
    (hnb : t.blockedUntil = none)
    (hwin : ¬ now > t.codeGenerations.resetTime)
    (hcnt : t.codeGenerations.count ≥ 5) :
    IPGateway.checkRateLimitTracker now .generation t = (false, t) := by
  obtain ⟨cg, ja, bu⟩ := t
  dsimp only at hnb hwin hcnt
  subst hnb
  unfold IPGateway.checkRateLimitTracker
  unfold IPGateway.checkRateLimitTracker.checkRateLimitBody
  dsimp only [IPGateway.limitOf, IPGateway.maxCountOf]
  rw [if_neg hwin, if_pos hcnt]
  rfl

theorem checkRateLimitTracker_gen_reset (now : Nat) (t : IPGateway.IPTracker)
    (hnb : t.blockedUntil = none)
    (hwin : now > t.codeGenerations.resetTime) :
    IPGateway.checkRateLimitTracker now .generation t =
      (true, { t with codeGenerations := ⟨1, now + 60000⟩ }) := by
  obtain ⟨cg, ja, bu⟩ := t
  dsimp only at hnb hwin
  subst hnb
  unfold IPGateway.checkRateLimitTracker
  unfold IPGateway.checkRateLimitTracker.checkRateLimitBody
  dsimp only [IPGateway.limitOf, IPGateway.maxCountOf]
  rw [if_pos hwin, if_neg (by simp)]
  rfl

theorem createRoom_admitted_step (s : IPGateway.IPState)
    (clientId ip : String) (ty : RoomType) (draws : List Nat) (now : Nat)
    (t t1 : IPGateway.IPTracker) (htr : s.ipTracking ip = some t)
    (hch : IPGateway.checkRateLimitTracker now .generation t = (true, t1))
    (o : Resp String × IPGateway.IPState)
    (he : IPGateway.createRoom s clientId ip ty draws now = some o) :
    (∃ c, o.1 = .ok c) ∧
    o.2.ipTracking = update s.ipTracking ip (some t1) := by
  unfold IPGateway.createRoom IPGateway.checkRateLimit at he
  rw [htr] at he
  dsimp only [Option.getD_some] at he
  rw [hch] at he
  dsimp only [Bool.not_true, Bool.false_eq_true, if_false] at he
  cases hg : generateCode s.rooms draws with
  | none => rw [hg] at he; cases he
  | some code =>
    rw [hg] at he
    cases he
    exact ⟨⟨code, rfl⟩, rfl⟩

theorem createRoom_fresh_step (s : IPGateway.IPState)
    (clientId ip : String) (ty : RoomType) (draws : List Nat) (now : Nat)
    (htr : s.ipTracking ip = none)
    (o : Resp String × IPGateway.IPState)
    (he : IPGateway.createRoom s clientId ip ty draws now = some o) :
    (∃ c, o.1 = .ok c) ∧
    o.2.ipTracking = update s.ipTracking ip
      (some ⟨⟨1, now + 60000⟩, ⟨0, now + 60000⟩, none⟩) := by
  have hch := checkRateLimitTracker_gen_allowed now (IPGateway.freshTracker now)
    rfl (by dsimp only [IPGateway.freshTracker]; omega)
    (by dsimp only [IPGateway.freshTracker]; omega)
  unfold IPGateway.createRoom IPGateway.checkRateLimit at he
  rw [htr] at he
  dsimp only [Option.getD_none] at he
  rw [hch] at he
  dsimp only [Bool.not_true, Bool.false_eq_true, if_false] at he
  cases hg : generateCode s.rooms draws with
  | none => rw [hg] at he; cases he
  | some code =>
    rw [hg] at he
    cases he
    exact ⟨⟨code, rfl⟩, rfl⟩

/-- C6: from a fresh key, the first five room-generation requests inside
one fixed window are admitted, the sixth inside the window is rejected
with `RateLimited` and leaves the state (in particular the room registry)
unchanged, and once the window's reset time has passed the counter is
reset so that the next request is admitted again (its counter restarting
at 1). -/
theorem C6_generation_rate_limit (s0 : IPGateway.IPState)
    (clientId ip : String) (ty : RoomType)
    (d1 d2 d3 d4 d5 d6 d7 : List Nat) (t1 t2 t3 t4 t5 t6 t7 : Nat)
    (hfresh : s0.ipTracking ip = none)
    (hw2 : t2 ≤ t1 + 60000) (hw3 : t3 ≤ t1 + 60000) (hw4 : t4 ≤ t1 + 60000)
    (hw5 : t5 ≤ t1 + 60000) (hw6 : t6 ≤ t1 + 60000) (hw7 : t1 + 60000 < t7)
    (o1 o2 o3 o4 o5 : Resp String × IPGateway.IPState)
    (e1 : IPGateway.createRoom s0 clientId ip ty d1 t1 = some o1)
    (e2 : IPGateway.createRoom o1.2 clientId ip ty d2 t2 = some o2)
    (e3 : IPGateway.createRoom o2.2 clientId ip ty d3 t3 = some o3)
    (e4 : IPGateway.createRoom o3.2 clientId ip ty d4 t4 = some o4)
    (e5 : IPGateway.createRoom o4.2 clientId ip ty d5 t5 = some o5) :
    ((∃ c, o1.1 = .ok c) ∧ (∃ c, o2.1 = .ok c) ∧ (∃ c, o3.1 = .ok c) ∧
     (∃ c, o4.1 = .ok c) ∧ (∃ c, o5.1 = .ok c)) ∧
    IPGateway.createRoom o5.2 clientId ip ty d6 t6 =
      some (.error ("Rate limit exceeded. Please try again later."), o5.2) ∧
    (∀ o7, IPGateway.createRoom o5.2 clientId ip ty d7 t7 = some o7 →
      (∃ c, o7.1 = .ok c) ∧
      o7.2.ipTracking ip =
        some ⟨⟨1, t7 + 60000⟩, ⟨0, t1 + 60000⟩, none⟩) := by
  have h1 := createRoom_fresh_step s0 clientId ip ty d1 t1 hfresh o1 e1
  have htr1 : o1.2.ipTracking ip =
      some ⟨⟨1, t1 + 60000⟩, ⟨0, t1 + 60000⟩, none⟩ := by
    rw [h1.2, update_self]
  have h2 := createRoom_admitted_step o1.2 clientId ip ty d2 t2 _ _ htr1
    (checkRateLimitTracker_gen_allowed t2 _ rfl (by dsimp only; omega)
      (by dsimp only; omega)) o2 e2
  have htr2 : o2.2.ipTracking ip =
      some ⟨⟨2, t1 + 60000⟩, ⟨0, t1 + 60000⟩, none⟩ := by
    rw [h2.2, update_self]
  have h3 := createRoom_admitted_step o2.2 clientId ip ty d3 t3 _ _ htr2
    (checkRateLimitTracker_gen_allowed t3 _ rfl (by dsimp only; omega)
      (by dsimp only; omega)) o3 e3
  have htr3 : o3.2.ipTracking ip =
      some ⟨⟨3, t1 + 60000⟩, ⟨0, t1 + 60000⟩, none⟩ := by
    rw [h3.2, update_self]
  have h4 := createRoom_admitted_step o3.2 clientId ip ty d4 t4 _ _ htr3
    (checkRateLimitTracker_gen_allowed t4 _ rfl (by dsimp only; omega)
      (by dsimp only; omega)) o4 e4
  have htr4 : o4.2.ipTracking ip =
      some ⟨⟨4, t1 + 60000⟩, ⟨0, t1 + 60000⟩, none⟩ := by
    rw [h4.2, update_self]
  have h5 := createRoom_admitted_step o4.2 clientId ip ty d5 t5 _ _ htr4
    (checkRateLimitTracker_gen_allowed t5 _ rfl (by dsimp only; omega)
      (by dsimp only; omega)) o5 e5
  have htr5 : o5.2.ipTracking ip =
      some ⟨⟨5, t1 + 60000⟩, ⟨0, t1 + 60000⟩, none⟩ := by
    rw [h5.2, update_self]
  refine ⟨⟨h1.1, h2.1, h3.1, h4.1, h5.1⟩, ?_, ?_⟩
  · have hrefuse := checkRateLimitTracker_gen_refused t6
      ⟨⟨5, t1 + 60000⟩, ⟨0, t1 + 60000⟩, none⟩ rfl (by dsimp only; omega)
      (by dsimp only; omega)
    unfold IPGateway.createRoom IPGateway.checkRateLimit
    rw [htr5]
    dsimp only [Option.getD_some]
    rw [hrefuse]
    dsimp only [Bool.not_false, if_true]
    have hupd : update o5.2.ipTracking ip
        (some ⟨⟨5, t1 + 60000⟩, ⟨0, t1 + 60000⟩, none⟩) = o5.2.ipTracking :=
      update_of_lookup _ _ htr5
    rw [hupd]
    rfl
  · intro o7 e7
    have hreset := checkRateLimitTracker_gen_reset t7
      ⟨⟨5, t1 + 60000⟩, ⟨0, t1 + 60000⟩, none⟩ rfl (by dsimp only; omega)
    have h7 := createRoom_admitted_step o5.2 clientId ip ty d7 t7 _ _ htr5
      hreset o7 e7
    refine ⟨h7.1, ?_⟩
    rw [h7.2, update_self]

/-- Witness for C6 at a concrete six-call schedule (all at time 0, the
seventh at 60001). -/
theorem C6_generation_rate_limit_witness :
    (∃ c, c6r5.1 = .ok c) ∧
    IPGateway.createRoom c6r5.2 ("a") ("1.1.1.1") RoomType.text [5] 0 =
      some (.error ("Rate limit exceeded. Please try again later."), c6r5.2) ∧
    (∀ o7, IPGateway.createRoom c6r5.2 ("a") ("1.1.1.1") RoomType.text [5]
        60001 = some o7 →
      (∃ c, o7.1 = .ok c) ∧
      o7.2.ipTracking ("1.1.1.1") =
        some ⟨⟨1, 60001 + 60000⟩, ⟨0, 0 + 60000⟩, none⟩) := by
  have h := C6_generation_rate_limit c6s0 ("a") ("1.1.1.1") RoomType.text
    [0] [1] [2] [3] [4] [5] [5] 0 0 0 0 0 0 60001 rfl (by omega) (by omega)
    (by omega) (by omega) (by omega) (by omega) c6r1 c6r2 c6r3 c6r4 c6r5
    rfl rfl rfl rfl rfl
  exact ⟨h.1.2.2.2.2, h.2.1, h.2.2⟩

theorem pushCapped_lastN (cap : Nat) (hcap : 1 ≤ cap) (L : List Message)
    (m : Message) :
    Gateway.pushCapped cap (lastN cap L) m = lastN cap (L ++ [m]) := by
  unfold Gateway.pushCapped lastN
  dsimp only
  by_cases hlen : L.length ≤ cap
  · have h0 : L.length - cap = 0 := by omega
    rw [h0, List.drop_zero]
    by_cases hfull : (L ++ [m]).length > cap
    · rw [if_pos hfull]
    · rw [if_neg hfull]
      have h1 : (L ++ [m]).length - cap = 0 := by
        simp only [List.length_append, List.length_cons, List.length_nil] at hfull ⊢
        omega
      rw [h1, List.drop_zero]
  · have hA : (L.drop (L.length - cap)).length = cap := by
      simp only [List.length_drop]
      omega
    have hfull : (L.drop (L.length - cap) ++ [m]).length > cap := by
      simp only [List.length_append, hA, List.length_cons, List.length_nil]
      omega
    rw [if_pos hfull]
    have hl1 : (L.drop (L.length - cap) ++ [m]).length - cap = 1 := by
      simp only [List.length_append, hA, List.length_cons, List.length_nil]
      omega
    rw [hl1]
    rw [List.drop_append_eq_append_drop, List.drop_drop]
    conv_rhs => rw [List.drop_append_eq_append_drop]
    have e1 : L.length - cap + 1 = (L ++ [m]).length - cap := by
      simp only [List.length_append, List.length_cons, List.length_nil]
      omega
    have e2 : 1 - (L.drop (L.length - cap)).length = 0 := by
      rw [hA]; omega
    have e3 : (L ++ [m]).length - cap - L.length = 0 := by
      simp only [List.length_append, List.length_cons, List.length_nil]
      omega
    rw [e1, e2, e3, List.drop_zero]

theorem foldl_pushCapped_lastN (cap : Nat) (hcap : 1 ≤ cap) :
    ∀ (ms : List Message) (L : List Message),
      ms.foldl (fun acc m => Gateway.pushCapped cap acc m) (lastN cap L) =
        lastN cap (L ++ ms) := by
  intro ms
  induction ms with
  | nil => intro L; simp
  | cons m rest ih =>
    intro L
    simp only [List.foldl_cons]
    rw [pushCapped_lastN cap hcap L m, ih (L ++ [m]), List.append_assoc]
    rfl

theorem syncRoomToRedis_preserves (s : ClusterGateway.CState) (code : String) :
    (ClusterGateway.syncRoomToRedis s code).rooms = s.rooms ∧
    (ClusterGateway.syncRoomToRedis s code).joinCounts = s.joinCounts := by
  unfold ClusterGateway.syncRoomToRedis
  cases s.rooms code with
  | none => exact ⟨rfl, rfl⟩
  | some room =>
    dsimp only
    by_cases h : s.redisAvailable = true
    · rw [if_pos h]
      exact ⟨rfl, rfl⟩
    · rw [if_neg h]
      exact ⟨rfl, rfl⟩

theorem sendMessages_text_room (a b code creator : String)
    (au : Option AudioSettings) (hab : a ≠ b) :
    ∀ (msgs : List (String × Nat)) (s : ClusterGateway.CState)
      (buf : List Message),
      s.rooms code = some ⟨creator, [a, b], .text, some buf, au⟩ →
      (∀ p ∈ msgs, validateAndSanitizeMessage p.1 = .valid p.1) →
      (ClusterGateway.sendMessages s a code msgs).1.rooms code =
        some ⟨creator, [a, b], .text,
          some (msgs.foldl (fun acc p =>
            Gateway.pushCapped ClusterGateway.MAX_MESSAGES_PER_ROOM acc
              ⟨a, p.1, p.2⟩) buf), au⟩ ∧
      (ClusterGateway.sendMessages s a code msgs).1.joinCounts =
        s.joinCounts ∧
      (ClusterGateway.sendMessages s a code msgs).2.1 =
        msgs.map (fun p => ⟨.room code, .newMessage ⟨a, p.1, p.2⟩⟩) ∧
      (ClusterGateway.sendMessages s a code msgs).2.2 =
        List.replicate msgs.length (.ok ()) := by
  intro msgs
  induction msgs with
  | nil =>
    intro s buf hroom hvalid
    exact ⟨hroom, rfl, rfl, rfl⟩
  | cons p rest ih =>
    obtain ⟨text, now⟩ := p
    intro s buf hroom hvalid
    have hv : validateAndSanitizeMessage text = .valid text :=
      hvalid (text, now) (List.mem_cons_self _ _)
    have hmem : ¬ a ∉ [a, b] := by simp
    have hlen : ¬ ([a, b] : List String).length < 2 := by simp
    have hstep : ClusterGateway.handleSendMessage s a code text now =
        (.ok (), ClusterGateway.syncRoomToRedis { s with rooms := update s.rooms code (some ⟨creator, [a, b], .text, some (Gateway.pushCapped ClusterGateway.MAX_MESSAGES_PER_ROOM buf ⟨a, text, now⟩), au⟩) } code,
         [⟨.room code, .newMessage ⟨a, text, now⟩⟩]) := by
      unfold ClusterGateway.handleSendMessage
      rw [hroom]
      dsimp only
      rw [if_neg hmem, if_neg hlen, hv]
      rfl
    have hsync := syncRoomToRedis_preserves { s with rooms := update s.rooms code (some ⟨creator, [a, b], .text, some (Gateway.pushCapped ClusterGateway.MAX_MESSAGES_PER_ROOM buf ⟨a, text, now⟩), au⟩) } code
    have hroom1 : (ClusterGateway.handleSendMessage s a code text
        now).2.1.rooms code =
        some ⟨creator, [a, b], .text,
          some (Gateway.pushCapped ClusterGateway.MAX_MESSAGES_PER_ROOM
            buf ⟨a, text, now⟩), au⟩ := by
      rw [hstep]
      dsimp only
      rw [hsync.1]
      dsimp only
      rw [update_self]
    have ih2 := ih (ClusterGateway.handleSendMessage s a code text now).2.1
      (Gateway.pushCapped ClusterGateway.MAX_MESSAGES_PER_ROOM buf
        ⟨a, text, now⟩) hroom1
      (fun q hq => hvalid q (List.mem_cons_of_mem _ hq))
    have hout : ClusterGateway.sendMessages s a code ((text, now) :: rest) =
        ((ClusterGateway.sendMessages
            (ClusterGateway.handleSendMessage s a code text now).2.1 a code
            rest).1,
         (ClusterGateway.handleSendMessage s a code text now).2.2 ++
           (ClusterGateway.sendMessages
             (ClusterGateway.handleSendMessage s a code text now).2.1 a code
             rest).2.1,
         (ClusterGateway.handleSendMessage s a code text now).1 ::
           (ClusterGateway.sendMessages
             (ClusterGateway.handleSendMessage s a code text now).2.1 a code
             rest).2.2) := rfl
    rw [hout]
    dsimp only
    refine ⟨ih2.1, ?_, ?_, ?_⟩
    · rw [ih2.2.1, hstep]
      dsimp only
      rw [hsync.2]
    · rw [ih2.2.2.1, hstep]
      rfl
    · rw [ih2.2.2.2, hstep]
      simp [List.replicate_succ]

/-- C8: in a text room with two joined members and message cap 50, one
member successfully sending 101 valid (sanitization-invariant) messages
leaves the stored buffer holding exactly the last 50 of them in send
order; each send returns success and broadcasts one `newMessage` to the
room in send order; and a subsequent joiner (admitted by the join rate
limiter) receives exactly that buffer in the join response. -/
theorem C8_message_cap_scenario (s : ClusterGateway.CState)
    (code a b c creator : String) (au : Option AudioSettings)
    (msgs : List (String × Nat)) (tj : Nat) (hab : a ≠ b)
    (hroom : s.rooms code = some ⟨creator, [a, b], .text, some [], au⟩)
    (hlen : msgs.length = 101)
    (hvalid : ∀ p ∈ msgs, validateAndSanitizeMessage p.1 = .valid p.1)
    (hc : c ∉ [a, b])
    (hrl : s.joinCounts c + 1 ≤ ClusterGateway.MAX_JOIN_ATTEMPTS) :
    (ClusterGateway.sendMessages s a code msgs).1.rooms code =
      some ⟨creator, [a, b], .text,
        some ((msgs.map (fun p => Message.mk a p.1 p.2)).drop 51), au⟩ ∧
    (ClusterGateway.sendMessages s a code msgs).2.1 =
      (msgs.map (fun p => Message.mk a p.1 p.2)).map
        (fun m => ⟨.room code, .newMessage m⟩) ∧
    (ClusterGateway.sendMessages s a code msgs).2.2 =
      List.replicate 101 (.ok ()) ∧
    (ClusterGateway.joinRoom (ClusterGateway.sendMessages s a code msgs).1 c
      code none tj).1 =
      .ok ⟨(msgs.map (fun p => Message.mk a p.1 p.2)).drop 51, 3, .text⟩ := by
  have hsm := sendMessages_text_room a b code creator au hab msgs s [] hroom
    hvalid
  have hfold : msgs.foldl (fun acc p =>
      Gateway.pushCapped ClusterGateway.MAX_MESSAGES_PER_ROOM acc
        ⟨a, p.1, p.2⟩) [] =
      (msgs.map (fun p => Message.mk a p.1 p.2)).drop 51 := by
    have hmap := List.foldl_map (fun p : String × Nat => Message.mk a p.1 p.2)
      (fun acc m => Gateway.pushCapped ClusterGateway.MAX_MESSAGES_PER_ROOM
        acc m) msgs ([] : List Message)
    have hnil : ([] : List Message) =
        lastN ClusterGateway.MAX_MESSAGES_PER_ROOM [] := rfl
    calc msgs.foldl (fun acc p =>
          Gateway.pushCapped ClusterGateway.MAX_MESSAGES_PER_ROOM acc
            ⟨a, p.1, p.2⟩) []
        = (msgs.map (fun p => Message.mk a p.1 p.2)).foldl
            (fun acc m => Gateway.pushCapped
              ClusterGateway.MAX_MESSAGES_PER_ROOM acc m) [] := by
          rw [← hmap]
      _ = (msgs.map (fun p => Message.mk a p.1 p.2)).foldl
            (fun acc m => Gateway.pushCapped
              ClusterGateway.MAX_MESSAGES_PER_ROOM acc m)
            (lastN ClusterGateway.MAX_MESSAGES_PER_ROOM []) := by rw [← hnil]
      _ = lastN ClusterGateway.MAX_MESSAGES_PER_ROOM
            ([] ++ msgs.map (fun p => Message.mk a p.1 p.2)) :=
          foldl_pushCapped_lastN ClusterGateway.MAX_MESSAGES_PER_ROOM
            (by decide) _ []
      _ = (msgs.map (fun p => Message.mk a p.1 p.2)).drop 51 := by
          unfold lastN
          rw [List.nil_append]
          congr 1
          simp only [List.length_map, hlen]
          decide
  have hrooms : (ClusterGateway.sendMessages s a code msgs).1.rooms code =
      some ⟨creator, [a, b], .text,
        some ((msgs.map (fun p => Message.mk a p.1 p.2)).drop 51), au⟩ := by
    rw [hsm.1, hfold]
  refine ⟨hrooms, ?_, ?_, ?_⟩
  · rw [hsm.2.2.1, List.map_map]
    rfl
  · rw [hsm.2.2.2, hlen]
  · have hcnt : (ClusterGateway.sendMessages s a code msgs).1.joinCounts c + 1 ≤
        ClusterGateway.MAX_JOIN_ATTEMPTS := by
      rw [hsm.2.1]
      exact hrl
    simp only [ClusterGateway.joinRoom, ClusterGateway.checkJoinRateLimit,
      decide_eq_true hcnt, Bool.not_true, Bool.false_eq_true, if_false, hrooms]
    simp [hc]

/-- Witness for C8: 101 concrete messages through a concrete two-member
text room, then a third joiner receiving the last 50. -/
theorem C8_message_cap_scenario_witness :
    (ClusterGateway.sendMessages c8s0 ("a") ("555555") c8msgs).1.rooms
      ("555555") =
      some ⟨("a"), [("a"), ("b")], RoomType.text,
        some ((c8msgs.map (fun p => Message.mk ("a") p.1 p.2)).drop 51), none⟩ ∧
    (ClusterGateway.sendMessages c8s0 ("a") ("555555") c8msgs).2.2 =
      List.replicate 101 (.ok ()) ∧
    (ClusterGateway.joinRoom (ClusterGateway.sendMessages c8s0 ("a") ("555555")
      c8msgs).1 ("c") ("555555") none 0).1 =
      .ok ⟨(c8msgs.map (fun p => Message.mk ("a") p.1 p.2)).drop 51, 3,
        .text⟩ := by
  have hvalid : ∀ p ∈ c8msgs, validateAndSanitizeMessage p.1 = .valid p.1 := by
    intro p hp
    unfold c8msgs at hp
    obtain ⟨i, hi, rfl⟩ := List.mem_map.mp hp
    exact (by decide :
      validateAndSanitizeMessage ("hi") = ValidationResult.valid ("hi"))
  have h := C8_message_cap_scenario c8s0 ("555555") ("a") ("b") ("c") ("a")
    none c8msgs 0 (by decide) rfl (by simp [c8msgs]) hvalid (by decide)
    (by decide)
  exact ⟨h.1, h.2.2.1, h.2.2.2⟩

end MChat
